import Mathlib

/-!
Verification of the shellshade terminal-theme installer module
(`src/installers.ts`-style source, here `src/unnamed/part_000`).

The module exports one install routine per terminal emulator
(iTerm2, Terminal.app, Windows Terminal, Alacritty, Kitty), a theme lookup
over key/value color rows, hex-color codecs, a hand-rolled JSONC comment
stripper and several text-merge routines.  This file shallowly embeds those
routines: pure string manipulation is transliterated directly; file-system
and subprocess effects are passed in as explicit environment records and
outcome flags; `JSON.parse` is an oracle parameter.
-/

set_option maxHeartbeats 1000000
set_option maxRecDepth 8000

abbrev Str := List Char

/-! ## Data model (shared/types) -/

/-- The 16 ANSI palette colors of a theme (hex strings). -/
structure AnsiColors where
  black : String
  red : String
  green : String
  yellow : String
  blue : String
  magenta : String
  cyan : String
  white : String
  brightBlack : String
  brightRed : String
  brightGreen : String
  brightYellow : String
  brightBlue : String
  brightMagenta : String
  brightCyan : String
  brightWhite : String
deriving DecidableEq, Repr

/-- `ThemeColors` from `shared/types/theme`. -/
structure ThemeColors where
  background : String
  foreground : String
  cursor : String
  cursorText : String
  selection : String
  selectionText : String
  ansi : AnsiColors
deriving DecidableEq, Repr

/-- `InstallResult` from `shared/types/ipc`: the uniform installer return
contract.  Optional fields are modelled as `Option`. -/
structure InstallResult where
  success : Bool
  path : String
  instructions : Option String := none
  error : Option String := none
deriving DecidableEq, Repr

/-- Snapshot of the database rows relevant to one theme id:
the `theme_colors` rows `(color_key, hex_value)` returned for the id, and
the optional `themes.name` row. -/
structure ThemeDb where
  rows : List (String × String)
  name : Option String
deriving Repr

/-- JavaScript `x || d` on an optional string: `undefined` and the empty
string (both falsy) yield the default. -/
def jsOrDefault (v : Option String) (d : String) : String :=
  match v with
  | some s => if s = "" then d else s
  | none => d

/-- `new Map(pairs).get(k)`: the last pair with key `k` wins. -/
def mapGet (rows : List (String × String)) (k : String) : Option String :=
  (rows.reverse.find? (fun r => r.1 == k)).map (fun r => r.2)

/-- `colorMap.get(k) || default` in `getThemeColors`. -/
def getCol (rows : List (String × String)) (k d : String) : String :=
  jsOrDefault (mapGet rows k) d

/-- `getThemeColors` (source lines 19-55): `null` when no color rows exist,
otherwise every field falls back to its fixed default. -/
def getThemeColors (rows : List (String × String)) : Option ThemeColors :=
  if rows = [] then none
  else some
    { background := getCol rows "background" "#000000"
      foreground := getCol rows "foreground" "#ffffff"
      cursor := getCol rows "cursor" "#ffffff"
      cursorText := getCol rows "cursorText" "#000000"
      selection := getCol rows "selection" "#444444"
      selectionText := getCol rows "selectionText" "#ffffff"
      ansi :=
      { black := getCol rows "ansi_black" "#000000"
        red := getCol rows "ansi_red" "#ff0000"
        green := getCol rows "ansi_green" "#00ff00"
        yellow := getCol rows "ansi_yellow" "#ffff00"
        blue := getCol rows "ansi_blue" "#0000ff"
        magenta := getCol rows "ansi_magenta" "#ff00ff"
        cyan := getCol rows "ansi_cyan" "#00ffff"
        white := getCol rows "ansi_white" "#ffffff"
        brightBlack := getCol rows "ansi_brightBlack" "#666666"
        brightRed := getCol rows "ansi_brightRed" "#ff6666"
        brightGreen := getCol rows "ansi_brightGreen" "#66ff66"
        brightYellow := getCol rows "ansi_brightYellow" "#ffff66"
        brightBlue := getCol rows "ansi_brightBlue" "#6666ff"
        brightMagenta := getCol rows "ansi_brightMagenta" "#ff66ff"
        brightCyan := getCol rows "ansi_brightCyan" "#66ffff"
        brightWhite := getCol rows "ansi_brightWhite" "#ffffff" } }

/-- `getThemeName` (source lines 58-62): `theme?.name || 'Untitled'`. -/
def getThemeName (name : Option String) : String :=
  jsOrDefault name "Untitled"

/-! ## Color codec -/

/-- Value of one hex digit, as `parseInt(_, 16)` assigns it to digits
`0-9a-fA-F` (the codec is only ever applied to `#RRGGBB` strings; the spec
leaves malformed input undefined, and we return 0 outside the digit ranges). -/
def hexDigitVal (c : Char) : Nat :=
  if 48 ≤ c.toNat ∧ c.toNat ≤ 57 then c.toNat - 48
  else if 97 ≤ c.toNat ∧ c.toNat ≤ 102 then c.toNat - 87
  else if 65 ≤ c.toNat ∧ c.toNat ≤ 70 then c.toNat - 55
  else 0

/-- `parseInt(hex.slice(i, i+2), 16)`: the byte spelled by the two hex
digits at positions `i`, `i+1`. -/
def hexByte (s : String) (i : Nat) : Nat :=
  16 * hexDigitVal (s.data.getD i '0') + hexDigitVal (s.data.getD (i + 1) '0')

/-- The iTerm2 color dictionary built by `hexToItermColorDict`
(source lines 65-83).  Fractional channels are rationals. -/
structure ItermColorDict where
  redComponent : ℚ
  greenComponent : ℚ
  blueComponent : ℚ
  alphaComponent : ℚ
  colorSpace : String
deriving DecidableEq, Repr

/-- `hexToItermColorDict` (source lines 65-83): each channel `byte/255`,
alpha 1, color space "sRGB". -/
def hexToItermColorDict (hex : String) : ItermColorDict :=
  { redComponent := (hexByte hex 1 : ℚ) / 255
    greenComponent := (hexByte hex 3 : ℚ) / 255
    blueComponent := (hexByte hex 5 : ℚ) / 255
    alphaComponent := 1
    colorSpace := "sRGB" }

/-- The numeric triple computed by the `hexToRGB` helpers
(source lines 187-192 and 271-276): each channel `byte*257`. -/
def hexToRGBTriple (hex : String) : Nat × Nat × Nat :=
  (hexByte hex 1 * 257, hexByte hex 3 * 257, hexByte hex 5 * 257)

/-- The AppleScript literal `{r, g, b}` rendered by `hexToRGB`. -/
def hexToRGB (hex : String) : String :=
  "\x7b" ++ toString (hexByte hex 1 * 257) ++ ", " ++ toString (hexByte hex 3 * 257)
    ++ ", " ++ toString (hexByte hex 5 * 257) ++ "\x7d"

/-- A well-formed 7-character hex color: `#` followed by six hex digits. -/
def wellFormedHex (s : String) : Bool :=
  (s.data.length == 7) && (s.data.headD 'x' == '#') &&
    s.data.tail.all (fun c =>
      (48 ≤ c.toNat && c.toNat ≤ 57) || (97 ≤ c.toNat && c.toNat ≤ 102) ||
        (65 ≤ c.toNat && c.toNat ≤ 70))

/-! ## iTerm2 slug -/

/-- After `toLowerCase`, the characters the regex `[^a-z0-9]+` keeps. -/
def isSlugChar (c : Char) : Bool :=
  (97 ≤ c.toNat && c.toNat ≤ 122) || (48 ≤ c.toNat && c.toNat ≤ 57)

/-- ASCII case folding, the fragment of `String.prototype.toLowerCase`
relevant to the slug (every character the regex keeps is ASCII). -/
def jsToLower (c : Char) : Char :=
  if 65 ≤ c.toNat ∧ c.toNat ≤ 90 then Char.ofNat (c.toNat + 32) else c

/-- `replace(/[^a-z0-9]+/g, '-')`: the flag records whether we are inside a
run of replaced characters (so the run yields a single hyphen). -/
def slugGo : Bool → Str → Str
  | _, [] => []
  | inRun, c :: cs =>
    if isSlugChar c then c :: slugGo false cs
    else if inRun then slugGo true cs
    else '-' :: slugGo true cs

/-- `themeName.toLowerCase().replace(/[^a-z0-9]+/g, '-')` (source line 134). -/
def slugify (s : String) : String :=
  ⟨slugGo false (s.data.map jsToLower)⟩

/-! ## Lemmas for the codec bounds (C5) -/

theorem hexDigitVal_le (c : Char) : hexDigitVal c ≤ 15 := by
  unfold hexDigitVal
  split_ifs <;> omega

theorem hexByte_le (s : String) (i : Nat) : hexByte s i ≤ 255 := by
  have h1 := hexDigitVal_le (s.data.getD i '0')
  have h2 := hexDigitVal_le (s.data.getD (i + 1) '0')
  unfold hexByte
  omega

theorem frac_nonneg (n : Nat) : (0 : ℚ) ≤ (n : ℚ) / 255 := by positivity

theorem frac_le_one {n : Nat} (h : n ≤ 255) : (n : ℚ) / 255 ≤ 1 := by
  rw [div_le_one (by norm_num : (0 : ℚ) < 255)]
  exact_mod_cast h

/-- C5: for every well-formed 7-character hex string, `hexToItermColorDict`
returns channels `byte/255` in `[0,1]` with alpha exactly 1 and color space
"sRGB", and the `hexToRGB` helpers return channels `byte*257` in
`[0,65535]`.  Both are Lean functions of the input string, hence
deterministic and pure. -/
theorem hex_conversions_bounded (hex : String) (h : wellFormedHex hex = true) :
    (0 ≤ (hexToItermColorDict hex).redComponent ∧ (hexToItermColorDict hex).redComponent ≤ 1) ∧
    (0 ≤ (hexToItermColorDict hex).greenComponent ∧ (hexToItermColorDict hex).greenComponent ≤ 1) ∧
    (0 ≤ (hexToItermColorDict hex).blueComponent ∧ (hexToItermColorDict hex).blueComponent ≤ 1) ∧
    (hexToItermColorDict hex).alphaComponent = 1 ∧
    (hexToItermColorDict hex).colorSpace = "sRGB" ∧
    (hexToRGBTriple hex).1 ≤ 65535 ∧
    (hexToRGBTriple hex).2.1 ≤ 65535 ∧
    (hexToRGBTriple hex).2.2 ≤ 65535 := by
  refine ⟨⟨frac_nonneg _, frac_le_one (hexByte_le hex 1)⟩,
    ⟨frac_nonneg _, frac_le_one (hexByte_le hex 3)⟩,
    ⟨frac_nonneg _, frac_le_one (hexByte_le hex 5)⟩, rfl, rfl, ?_, ?_, ?_⟩
  · have := hexByte_le hex 1
    simp only [hexToRGBTriple]
    omega
  · have := hexByte_le hex 3
    simp only [hexToRGBTriple]
    omega
  · have := hexByte_le hex 5
    simp only [hexToRGBTriple]
    omega

/-- Witness for C5 at the concrete color `#1e1e2e`. -/
theorem hex_conversions_bounded_witness :
    wellFormedHex "#1e1e2e" = true ∧
    ((0 ≤ (hexToItermColorDict "#1e1e2e").redComponent ∧
        (hexToItermColorDict "#1e1e2e").redComponent ≤ 1) ∧
      (0 ≤ (hexToItermColorDict "#1e1e2e").greenComponent ∧
        (hexToItermColorDict "#1e1e2e").greenComponent ≤ 1) ∧
      (0 ≤ (hexToItermColorDict "#1e1e2e").blueComponent ∧
        (hexToItermColorDict "#1e1e2e").blueComponent ≤ 1) ∧
      (hexToItermColorDict "#1e1e2e").alphaComponent = 1 ∧
      (hexToItermColorDict "#1e1e2e").colorSpace = "sRGB" ∧
      (hexToRGBTriple "#1e1e2e").1 ≤ 65535 ∧
      (hexToRGBTriple "#1e1e2e").2.1 ≤ 65535 ∧
      (hexToRGBTriple "#1e1e2e").2.2 ≤ 65535) :=
  ⟨by decide, hex_conversions_bounded "#1e1e2e" (by decide)⟩

/-! ## Lemmas for the slug (C9) -/

theorem slugGo_cons (b : Bool) (c : Char) (cs : Str) :
    slugGo b (c :: cs) =
      if isSlugChar c then c :: slugGo false cs
      else if b then slugGo true cs else '-' :: slugGo true cs := rfl

theorem slugGo_mem {l : Str} {b : Bool} {c : Char} (h : c ∈ slugGo b l) :
    isSlugChar c = true ∨ c = '-' := by
  induction l generalizing b with
  | nil => simp [slugGo] at h
  | cons x xs ih =>
    rw [slugGo_cons] at h
    by_cases hx : isSlugChar x = true
    · rw [if_pos hx, List.mem_cons] at h
      rcases h with h | h
      · exact Or.inl (h ▸ hx)
      · exact ih h
    · rw [if_neg hx] at h
      cases b with
      | true =>
        rw [if_pos rfl] at h
        exact ih h
      | false =>
        rw [if_neg (by simp), List.mem_cons] at h
        rcases h with h | h
        · exact Or.inr h
        · exact ih h

theorem jsToLower_slug {c : Char} (h : isSlugChar c = true ∨ c = '-') :
    jsToLower c = c := by
  rcases h with h | h
  · simp only [isSlugChar, Bool.or_eq_true, Bool.and_eq_true, decide_eq_true_eq] at h
    unfold jsToLower
    rcases h with ⟨h1, h2⟩ | ⟨h1, h2⟩ <;> rw [if_neg (by omega)]
  · subst h; decide

theorem map_jsToLower_slugGo (l : Str) (b : Bool) :
    (slugGo b l).map jsToLower = slugGo b l := by
  have : ∀ c ∈ slugGo b l, jsToLower c = c := fun c hc => jsToLower_slug (slugGo_mem hc)
  rw [List.map_congr_left this]
  simp

theorem slugGo_idem (l : Str) : ∀ b, slugGo b (slugGo b l) = slugGo b l := by
  induction l with
  | nil => intro b; simp [slugGo]
  | cons x xs ih =>
    intro b
    rw [slugGo_cons]
    by_cases hx : isSlugChar x = true
    · rw [if_pos hx, slugGo_cons, if_pos hx, ih false]
    · rw [if_neg hx]
      cases b with
      | true =>
        rw [if_pos rfl]
        exact ih true
      | false =>
        rw [if_neg (by simp), slugGo_cons, if_neg (by decide), if_neg (by simp),
          ih true]

theorem slugGo_true_head (l : Str) : (slugGo true l).head? ≠ some '-' := by
  induction l with
  | nil => simp [slugGo]
  | cons x xs ih =>
    rw [slugGo_cons]
    by_cases hx : isSlugChar x = true
    · rw [if_pos hx]
      simp only [List.head?_cons, ne_eq, Option.some.injEq]
      intro h
      rw [h] at hx
      exact absurd hx (by decide)
    · rw [if_neg hx, if_pos rfl]
      exact ih

/-- No two adjacent hyphens. -/
def noDoubleHyphen : Str → Bool
  | [] => true
  | _ :: [] => true
  | x :: y :: cs => !(x == '-' && y == '-') && noDoubleHyphen (y :: cs)

theorem noDoubleHyphen_cons_of_ne {x : Char} (hx : x ≠ '-') (cs : Str) :
    noDoubleHyphen (x :: cs) = noDoubleHyphen cs := by
  have hb : (x == '-') = false := by simp [hx]
  cases cs with
  | nil => simp [noDoubleHyphen]
  | cons y ys => simp [noDoubleHyphen, hb]

theorem noDoubleHyphen_hyphen_cons {cs : Str} (h : cs.head? ≠ some '-') :
    noDoubleHyphen ('-' :: cs) = noDoubleHyphen cs := by
  cases cs with
  | nil => simp [noDoubleHyphen]
  | cons y ys =>
    simp only [List.head?_cons, ne_eq, Option.some.injEq] at h
    have hb : (y == '-') = false := by simp [h]
    simp [noDoubleHyphen, hb]

theorem noDoubleHyphen_slugGo (l : Str) : ∀ b, noDoubleHyphen (slugGo b l) = true := by
  induction l with
  | nil => intro b; simp [slugGo, noDoubleHyphen]
  | cons x xs ih =>
    intro b
    rw [slugGo_cons]
    by_cases hx : isSlugChar x = true
    · rw [if_pos hx]
      have hxh : x ≠ '-' := fun h => absurd (h ▸ hx) (by decide)
      rw [noDoubleHyphen_cons_of_ne hxh]
      exact ih false
    · rw [if_neg hx]
      cases b with
      | true =>
        rw [if_pos rfl]
        exact ih true
      | false =>
        rw [if_neg (by simp), noDoubleHyphen_hyphen_cons (slugGo_true_head xs)]
        exact ih true

/-- C9: the slug used by `installToIterm2` for the dynamic-profile filename
(lowercase, runs of non-alphanumerics collapsed to one hyphen) is
idempotent, never contains two adjacent hyphens, and maps
"My Theme!! 2" to "my-theme-2". -/
theorem slugify_idempotent :
    (∀ s : String, slugify (slugify s) = slugify s ∧
      noDoubleHyphen (slugify s).data = true) ∧
    slugify "My Theme!! 2" = "my-theme-2" := by
  constructor
  · intro s
    constructor
    · show (⟨slugGo false ((slugGo false (s.data.map jsToLower)).map jsToLower)⟩ : String) = _
      rw [map_jsToLower_slugGo, slugGo_idem]
      rfl
    · exact noDoubleHyphen_slugGo _ false
  · decide

/-! ## JSONC comment stripper (installToWindowsTerminal, source lines 366-425)

The scanner walks the document one character at a time with two state bits
(`inString`, `escaped`).  The source loop advances an index; here the
remaining document is a list and a fuel counter (initially the document
length, an upper bound on the number of loop iterations) makes the
recursion structural so that concrete runs reduce in the kernel. -/

/-- The block-comment loop `while (i < length - 1) ...`: consumes up to and
including a `*/` pair; with fewer than two characters left it stops,
leaving them to the main scanner. -/
def skipBlock : Str → Str
  | [] => []
  | [c] => [c]
  | c :: d :: ds => if c == '*' && d == '/' then ds else skipBlock (d :: ds)

theorem skipBlock_length_le (l : Str) : (skipBlock l).length ≤ l.length := by
  induction l with
  | nil => simp [skipBlock]
  | cons c cs ih =>
    cases cs with
    | nil => simp [skipBlock]
    | cons d ds =>
      rw [skipBlock]
      split
      · simp only [List.length_cons]
        omega
      · exact Nat.le_trans ih (by simp)

/-- The character scanner of `installToWindowsTerminal` (source lines
366-422), fuel-indexed.  Any fuel at least the document length yields the
loop's result. -/
def scanJsoncF : Nat → Str → Bool → Bool → Str
  | 0, _, _, _ => []
  | fuel + 1, s, inString, escaped =>
    match s with
    | [] => []
    | c :: cs =>
      if escaped then c :: scanJsoncF fuel cs inString false
      else if c == '\\' && inString then c :: scanJsoncF fuel cs inString true
      else if c == '"' then c :: scanJsoncF fuel cs (!inString) false
      else if !inString && c == '/' && cs.head? == some '/' then
        scanJsoncF fuel ((c :: cs).dropWhile (fun x => !(x == '\n'))) inString escaped
      else if !inString && c == '/' && cs.head? == some '*' then
        scanJsoncF fuel (skipBlock cs.tail) inString escaped
      else c :: scanJsoncF fuel cs inString escaped

/-- The comment-removal pass (`jsonWithoutComments`). -/
def stripComments (s : Str) : Str := scanJsoncF s.length s false false

theorem scanJsoncF_nil (f : Nat) (inS esc : Bool) : scanJsoncF f [] inS esc = [] := by
  cases f <;> rfl

theorem dropWhile_length_le (p : Char → Bool) (l : Str) :
    (l.dropWhile p).length ≤ l.length := by
  induction l with
  | nil => simp [List.dropWhile]
  | cons c cs ih =>
    rw [List.dropWhile_cons]
    split
    · exact Nat.le_trans ih (by simp)
    · simp

theorem scanCond_false {c : Char} {inS : Bool} (h : (c == '/' && !inS) = false)
    (o : Option Char) (x : Char) : (!inS && c == '/' && o == some x) = false := by
  cases hc : c == '/' <;> cases hi : inS <;> simp_all

theorem scanJsoncF_mono_aux : ∀ (n : Nat) (s : Str), s.length ≤ n →
    ∀ f1 f2 inS esc, s.length ≤ f1 → s.length ≤ f2 →
      scanJsoncF f1 s inS esc = scanJsoncF f2 s inS esc := by
  intro n
  induction n with
  | zero =>
    intro s hs f1 f2 inS esc h1 h2
    have : s = [] := List.length_eq_zero.mp (Nat.le_zero.mp hs)
    subst this
    rw [scanJsoncF_nil, scanJsoncF_nil]
  | succ n ih =>
    intro s hs f1 f2 inS esc h1 h2
    cases s with
    | nil => rw [scanJsoncF_nil, scanJsoncF_nil]
    | cons c cs =>
      cases f1 with
      | zero => simp at h1
      | succ f1' =>
        cases f2 with
        | zero => simp at h2
        | succ f2' =>
          simp only [List.length_cons] at hs h1 h2
          have hcs : cs.length ≤ n := Nat.lt_succ_iff.mp (Nat.lt_of_lt_of_le (Nat.lt_succ_self _) hs)
          have hc1 : cs.length ≤ f1' := Nat.lt_succ_iff.mp (Nat.lt_of_lt_of_le (Nat.lt_succ_self _) h1)
          have hc2 : cs.length ≤ f2' := Nat.lt_succ_iff.mp (Nat.lt_of_lt_of_le (Nat.lt_succ_self _) h2)
          simp only [scanJsoncF]
          split_ifs with b1 b2 b3 b4 b5
          · rw [ih cs hcs f1' f2' inS false hc1 hc2]
          · rw [ih cs hcs f1' f2' inS true hc1 hc2]
          · rw [ih cs hcs f1' f2' (!inS) false hc1 hc2]
          · have hc : c = '/' := by
              simp only [Bool.and_eq_true, beq_iff_eq] at b4
              exact b4.1.2
            have hdrop : (c :: cs).dropWhile (fun x => !(x == '\n')) =
                cs.dropWhile (fun x => !(x == '\n')) := by
              subst hc
              rw [List.dropWhile_cons]
              simp
            have hlen : ((c :: cs).dropWhile (fun x => !(x == '\n'))).length ≤ cs.length := by
              rw [hdrop]
              exact dropWhile_length_le _ _
            exact ih _ (Nat.le_trans hlen hcs) f1' f2' inS esc
              (Nat.le_trans hlen hc1) (Nat.le_trans hlen hc2)
          · have hlen : (skipBlock cs.tail).length ≤ cs.length :=
              Nat.le_trans (skipBlock_length_le _) (by cases cs <;> simp)
            exact ih _ (Nat.le_trans hlen hcs) f1' f2' inS esc
              (Nat.le_trans hlen hc1) (Nat.le_trans hlen hc2)
          · rw [ih cs hcs f1' f2' inS esc hc1 hc2]

theorem scanJsoncF_mono {s : Str} {f1 f2 : Nat} (inS esc : Bool)
    (h1 : s.length ≤ f1) (h2 : s.length ≤ f2) :
    scanJsoncF f1 s inS esc = scanJsoncF f2 s inS esc :=
  scanJsoncF_mono_aux s.length s (Nat.le_refl _) f1 f2 inS esc h1 h2

/-- JavaScript `\s` on the ASCII range, as used by the trailing-comma
regex `/,(\s*[}\]])/g`. -/
def isJsWs (c : Char) : Bool :=
  c == ' ' || c == '\n' || c == '\t' || c == '\r' || c == '\x0b' || c == '\x0c'

/-- The trailing-comma cleanup `replace(/,(\s*[}\]])/g, '$1')` (source line
425): a single left-to-right pass; at a comma whose next non-whitespace
character is `}` or `]` the comma is dropped, the whitespace and closer are
kept, and scanning resumes after the closer. -/
def stripTrailingCommasF : Nat → Str → Str
  | 0, _ => []
  | fuel + 1, s =>
    match s with
    | [] => []
    | c :: cs =>
      if c == ',' then
        match cs.dropWhile isJsWs with
        | b :: bs =>
          if b == '}' || b == ']' then
            cs.takeWhile isJsWs ++ b :: stripTrailingCommasF fuel bs
          else c :: stripTrailingCommasF fuel cs
        | [] => c :: stripTrailingCommasF fuel cs
      else c :: stripTrailingCommasF fuel cs

/-- The trailing-comma pass at its natural fuel. -/
def stripTrailingCommas (s : Str) : Str := stripTrailingCommasF s.length s

/-- The full JSONC stripping step of `installToWindowsTerminal`: comment
removal followed by the trailing-comma cleanup. -/
def stripJsoncChars (s : Str) : Str := stripTrailingCommas (stripComments s)

/-- String-level wrapper of `stripJsoncChars`. -/
def stripJsonc (s : String) : String := ⟨stripJsoncChars s.data⟩

/-! ## C4: line comments and unterminated block comments -/

theorem dropWhile_not_nl (pre post : Str) (h : '\n' ∉ pre) :
    (pre ++ '\n' :: post).dropWhile (fun x => !(x == '\n')) = '\n' :: post := by
  induction pre with
  | nil => simp [List.dropWhile_cons]
  | cons c cs ih =>
    simp only [List.mem_cons, not_or] at h
    have hc : c ≠ '\n' := fun e => h.1 e.symm
    rw [List.cons_append, List.dropWhile_cons, if_pos (by simp [hc])]
    exact ih h.2

/-- No `*/` pair occurs (the block comment is unterminated). -/
def noCloserPair : Str → Bool
  | [] => true
  | [_] => true
  | c :: d :: ds => !(c == '*' && d == '/') && noCloserPair (d :: ds)

theorem skipBlock_of_noCloser (rest : Str) (h : noCloserPair rest = true) :
    skipBlock rest = rest.drop (rest.length - 1) := by
  induction rest with
  | nil => simp [skipBlock]
  | cons c cs ih =>
    cases cs with
    | nil => simp [skipBlock]
    | cons d ds =>
      rw [noCloserPair, Bool.and_eq_true] at h
      have hne : (c == '*' && d == '/') = false := by
        cases hb : (c == '*' && d == '/') with
        | false => rfl
        | true =>
          rw [hb] at h
          simp at h
      rw [skipBlock, if_neg (by simp [hne]), ih h.2]
      have h1 : (c :: d :: ds).length - 1 = ds.length + 1 := by simp
      have h2 : (d :: ds).length - 1 = ds.length := by simp
      rw [h1, h2, List.drop_succ_cons]

theorem drop_last_singleton (l : Str) (h : l ≠ []) :
    ∃ x, l.drop (l.length - 1) = [x] := by
  induction l with
  | nil => exact absurd rfl h
  | cons c cs ih =>
    cases cs with
    | nil => exact ⟨c, rfl⟩
    | cons d ds =>
      obtain ⟨x, hx⟩ := ih (by simp)
      refine ⟨x, ?_⟩
      have h1 : (c :: d :: ds).length - 1 = (d :: ds).length - 1 + 1 := by simp
      rw [h1, List.drop_succ_cons, hx]

theorem scanJsoncF_single (f : Nat) (x : Char) :
    scanJsoncF (f + 1) [x] false false = [x] := by
  simp only [scanJsoncF, List.head?_nil, scanJsoncF_nil]
  split_ifs <;> simp_all

theorem scanJsoncF_newline (f : Nat) (cs : Str) :
    scanJsoncF (f + 1) ('\n' :: cs) false false = '\n' :: scanJsoncF f cs false false := by
  simp [scanJsoncF]

/-- C4 (amended): in the comment scanner of `installToWindowsTerminal`,
outside a string a `//` comment discards every character up to but not
including the next newline (the newline itself is emitted); a `/*` block
comment with no matching `*/` closer discards every remaining character
EXCEPT the final character of the document, which is emitted (the interior
loop only runs while at least two characters remain). -/
theorem comment_scanner_line_and_block :
    (∀ pre post : Str, '\n' ∉ pre →
      stripComments ('/' :: '/' :: (pre ++ '\n' :: post)) = '\n' :: stripComments post) ∧
    (∀ rest : Str, noCloserPair rest = true →
      stripComments ('/' :: '*' :: rest) = rest.drop (rest.length - 1)) := by
  constructor
  · intro pre post h
    show scanJsoncF (('/' :: '/' :: (pre ++ '\n' :: post)).length) _ false false = _
    rw [show ('/' :: '/' :: (pre ++ '\n' :: post)).length
        = (pre ++ '\n' :: post).length + 1 + 1 from by simp]
    rw [scanJsoncF]
    rw [if_neg (by simp), if_neg (by simp), if_neg (by simp), if_pos (by simp)]
    have hdrop : ('/' :: '/' :: (pre ++ '\n' :: post)).dropWhile (fun x => !(x == '\n')) =
        '\n' :: post := by
      have := dropWhile_not_nl ('/' :: '/' :: pre) post (by simp [h])
      simpa using this
    rw [hdrop]
    have hlen1 : ('\n' :: post).length ≤ (pre ++ '\n' :: post).length + 1 := by
      simp
      omega
    rw [scanJsoncF_mono false false hlen1 (Nat.le_refl ('\n' :: post).length)]
    show scanJsoncF (post.length + 1) ('\n' :: post) false false = _
    rw [scanJsoncF_newline]
    rfl
  · intro rest h
    show scanJsoncF (('/' :: '*' :: rest).length) _ false false = _
    rw [show ('/' :: '*' :: rest).length = rest.length + 1 + 1 from by simp]
    rw [scanJsoncF]
    rw [if_neg (by simp), if_neg (by simp), if_neg (by simp),
      if_neg (by simp), if_pos (by simp)]
    show scanJsoncF (rest.length + 1) (skipBlock rest) false false = _
    rw [skipBlock_of_noCloser rest h]
    cases hr : rest with
    | nil => simp [scanJsoncF_nil]
    | cons c cs =>
      obtain ⟨x, hx⟩ := drop_last_singleton (c :: cs) (by simp)
      rw [hx]
      rw [scanJsoncF_mono false false (by simp) (Nat.le_refl [x].length)]
      exact scanJsoncF_single 0 x

/-- C4 counterexample: on the document `/*x` the unterminated block comment
does NOT discard every remaining character — the final `x` is emitted. -/
theorem comment_scanner_unterminated_counterexample :
    stripComments ['/', '*', 'x'] = ['x'] ∧ (['x'] : Str) ≠ ([] : Str) := by
  constructor
  · rfl
  · simp

/-- Witness for C4 at concrete inputs: `//a\nb` keeps the newline and `b`;
`/*xy` (unterminated) keeps exactly the final `y`. -/
theorem comment_scanner_line_and_block_witness :
    ('\n' ∉ (['a'] : Str) ∧
      stripComments ('/' :: '/' :: ((['a'] : Str) ++ '\n' :: ['b'])) = '\n' :: stripComments ['b']) ∧
    (noCloserPair ['x', 'y'] = true ∧
      stripComments ('/' :: '*' :: ['x', 'y']) = (['x', 'y'] : Str).drop (['x', 'y'].length - 1)) :=
  ⟨⟨by decide, comment_scanner_line_and_block.1 ['a'] ['b'] (by decide)⟩,
    ⟨by decide, comment_scanner_line_and_block.2 ['x', 'y'] (by decide)⟩⟩

/-! ## C1: the stripping step on already-valid JSON

`noSlash` certifies, following the scanner's own state machine, that no
`/` occurs outside a string literal (valid JSON never has one); on such
documents the comment pass copies its input.  `noCommaCloser` certifies
that no comma is followed (across whitespace) by `}` or `]` anywhere in
the text; on such documents the trailing-comma pass copies its input. -/

def noSlash : Str → Bool → Bool → Bool
  | [], _, _ => true
  | c :: cs, inString, escaped =>
    if escaped then noSlash cs inString false
    else if c == '\\' && inString then noSlash cs inString true
    else if c == '"' then noSlash cs (!inString) false
    else if c == '/' && !inString then false
    else noSlash cs inString escaped

/-- String-state automaton: the scanner's `(inString, escaped)` pair after
consuming a chunk (comments assumed not triggered, as `noSlash` certifies). -/
def stAf : Str → Bool → Bool → Bool × Bool
  | [], inS, esc => (inS, esc)
  | c :: cs, inS, esc =>
    if esc then stAf cs inS false
    else if c == '\\' && inS then stAf cs inS true
    else if c == '"' then stAf cs (!inS) false
    else stAf cs inS esc

theorem scanJsoncF_of_noSlash (s : Str) : ∀ f inS esc, noSlash s inS esc = true →
    s.length ≤ f → scanJsoncF f s inS esc = s := by
  induction s with
  | nil => intro f inS esc _ _; exact scanJsoncF_nil f inS esc
  | cons c cs ih =>
    intro f inS esc h hf
    cases f with
    | zero => simp at hf
    | succ f' =>
      have hf' : cs.length ≤ f' := by
        simp only [List.length_cons] at hf
        omega
      rw [noSlash] at h
      simp only [scanJsoncF]
      by_cases b1 : esc = true
      · rw [if_pos b1] at h ⊢
        rw [ih f' inS false h hf']
      · rw [if_neg b1] at h ⊢
        by_cases b2 : (c == '\\' && inS) = true
        · rw [if_pos b2] at h ⊢
          rw [ih f' inS true h hf']
        · rw [if_neg b2] at h ⊢
          by_cases b3 : (c == '"') = true
          · rw [if_pos b3] at h ⊢
            rw [ih f' (!inS) false h hf']
          · rw [if_neg b3] at h ⊢
            by_cases b4 : (c == '/' && !inS) = true
            · rw [if_pos b4] at h
              exact absurd h (by simp)
            · rw [if_neg b4] at h
              have hb4 : (c == '/' && !inS) = false := by
                cases hx : (c == '/' && !inS)
                · rfl
                · exact absurd hx b4
              rw [if_neg (by rw [scanCond_false hb4]; simp),
                if_neg (by rw [scanCond_false hb4]; simp)]
              rw [ih f' inS esc h hf']

/-- No comma is followed, across whitespace, by `}` or `]`. -/
def noCommaCloser : Str → Bool
  | [] => true
  | c :: cs =>
    (if c == ',' then
      match cs.dropWhile isJsWs with
      | b :: _ => !(b == '}' || b == ']')
      | [] => true
    else true) && noCommaCloser cs

theorem stripTrailingCommasF_of_noCC (s : Str) : ∀ f, noCommaCloser s = true →
    s.length ≤ f → stripTrailingCommasF f s = s := by
  induction s with
  | nil => intro f _ _; cases f <;> rfl
  | cons c cs ih =>
    intro f h hf
    cases f with
    | zero => simp at hf
    | succ f' =>
      have hf' : cs.length ≤ f' := by
        simp only [List.length_cons] at hf
        omega
      rw [noCommaCloser, Bool.and_eq_true] at h
      simp only [stripTrailingCommasF]
      by_cases hc : (c == ',') = true
      · rw [if_pos hc]
        have h1 := h.1
        rw [if_pos hc] at h1
        cases hd : cs.dropWhile isJsWs with
        | nil =>
          simp only [hd]
          rw [ih f' h.2 hf']
        | cons b bs =>
          simp only [hd] at h1
          have hb : (b == '}' || b == ']') = false := by
            cases hx : (b == '}' || b == ']')
            · rfl
            · rw [hx] at h1
              simp at h1
          simp only [hd]
          rw [if_neg (by simp [hb])]
          rw [ih f' h.2 hf']
      · rw [if_neg hc]
        rw [ih f' h.2 hf']

theorem stAf_append (a b : Str) : ∀ inS esc,
    stAf (a ++ b) inS esc = stAf b (stAf a inS esc).1 (stAf a inS esc).2 := by
  induction a with
  | nil => intro inS esc; rfl
  | cons c cs ih =>
    intro inS esc
    simp only [List.cons_append, stAf, List.append_eq]
    by_cases b1 : esc = true
    · rw [if_pos b1, if_pos b1, ih]
    · rw [if_neg b1, if_neg b1]
      by_cases b2 : (c == '\\' && inS) = true
      · rw [if_pos b2, if_pos b2, ih]
      · rw [if_neg b2, if_neg b2]
        by_cases b3 : (c == '"') = true
        · rw [if_pos b3, if_pos b3, ih]
        · rw [if_neg b3, if_neg b3, ih]

theorem noSlash_append (a b : Str) : ∀ inS esc,
    noSlash (a ++ b) inS esc =
      (noSlash a inS esc && noSlash b (stAf a inS esc).1 (stAf a inS esc).2) := by
  induction a with
  | nil => intro inS esc; simp [noSlash, stAf]
  | cons c cs ih =>
    intro inS esc
    simp only [List.cons_append, noSlash, stAf, List.append_eq]
    by_cases b1 : esc = true
    · rw [if_pos b1, if_pos b1, if_pos b1, ih]
    · rw [if_neg b1, if_neg b1, if_neg b1]
      by_cases b2 : (c == '\\' && inS) = true
      · rw [if_pos b2, if_pos b2, if_pos b2, ih]
      · rw [if_neg b2, if_neg b2, if_neg b2]
        by_cases b3 : (c == '"') = true
        · rw [if_pos b3, if_pos b3, if_pos b3, ih]
        · rw [if_neg b3, if_neg b3, if_neg b3]
          by_cases b4 : (c == '/' && !inS) = true
          · rw [if_pos b4, if_pos b4]
            simp
          · rw [if_neg b4, if_neg b4, ih]

/-! ## A model of already-valid JSON documents

Valid JSON is modelled as the serialization (in `JSON.stringify` style:
no added whitespace, `"` and `\` escaped in strings) of a JSON value.
Mutual inductives avoid nesting so that structural induction is direct. -/

mutual
inductive Json where
  | jnull : Json
  | jbool : Bool → Json
  | jnum : Nat → Json
  | jstr : Str → Json
  | jarr : JsonArr → Json
  | jobj : JsonObj → Json
inductive JsonArr where
  | anil : JsonArr
  | acons : Json → JsonArr → JsonArr
inductive JsonObj where
  | onil : JsonObj
  | ocons : Str → Json → JsonObj → JsonObj
end

/-- String-literal escaping of `JSON.stringify` (quote and backslash; the
model is used on strings without control characters). -/
def jsonEscape : Str → Str
  | [] => []
  | c :: cs =>
    if c == '"' then '\\' :: '"' :: jsonEscape cs
    else if c == '\\' then '\\' :: '\\' :: jsonEscape cs
    else c :: jsonEscape cs

/-- A serialized string literal. -/
def strToken (s : Str) : Str := '"' :: jsonEscape s ++ ['"']

/-- The decimal digit characters. -/
def digitChar (m : Nat) : Char :=
  if m = 0 then '0' else if m = 1 then '1' else if m = 2 then '2'
  else if m = 3 then '3' else if m = 4 then '4' else if m = 5 then '5'
  else if m = 6 then '6' else if m = 7 then '7' else if m = 8 then '8' else '9'

/-- Decimal rendering of a natural number (fuel-indexed). -/
def natDigits : Nat → Nat → Str
  | 0, _ => []
  | fuel + 1, n =>
    if n < 10 then [digitChar n]
    else natDigits fuel (n / 10) ++ [digitChar (n % 10)]

def natSer (n : Nat) : Str := natDigits (n + 1) n

mutual
def Json.ser : Json → Str
  | .jnull => 'n' :: 'u' :: 'l' :: 'l' :: []
  | .jbool true => 't' :: 'r' :: 'u' :: 'e' :: []
  | .jbool false => 'f' :: 'a' :: 'l' :: 's' :: 'e' :: []
  | .jnum n => natSer n
  | .jstr s => strToken s
  | .jarr a => '[' :: JsonArr.ser a ++ [']']
  | .jobj o => '{' :: JsonObj.ser o ++ ['}']
def JsonArr.ser : JsonArr → Str
  | .anil => []
  | .acons v .anil => Json.ser v
  | .acons v (.acons w rest) => Json.ser v ++ ',' :: JsonArr.ser (.acons w rest)
def JsonObj.ser : JsonObj → Str
  | .onil => []
  | .ocons k v .onil => strToken k ++ ':' :: Json.ser v
  | .ocons k v (.ocons k' v' rest) =>
    strToken k ++ ':' :: Json.ser v ++ ',' :: JsonObj.ser (.ocons k' v' rest)
end

/-- Characters that keep the scanner's state and output untouched. -/
def plainChar (c : Char) : Bool := !(c == '\\') && !(c == '"') && !(c == '/')

theorem plain_step {c : Char} (hc : plainChar c = true) (cs : Str) (inS : Bool) :
    noSlash (c :: cs) inS false = noSlash cs inS false ∧
    stAf (c :: cs) inS false = stAf cs inS false := by
  simp only [plainChar, Bool.and_eq_true, Bool.not_eq_true'] at hc
  constructor
  · rw [noSlash, if_neg (by simp), if_neg (by simp [hc.1.1]),
      if_neg (by simp [hc.1.2]), if_neg (by simp [hc.2])]
  · rw [stAf, if_neg (by simp), if_neg (by simp [hc.1.1]), if_neg (by simp [hc.1.2])]

theorem plain_clean (l : Str) (h : l.all plainChar = true) (inS : Bool) :
    noSlash l inS false = true ∧ stAf l inS false = (inS, false) := by
  induction l with
  | nil => exact ⟨rfl, rfl⟩
  | cons c cs ih =>
    rw [List.all_cons, Bool.and_eq_true] at h
    obtain ⟨h1, h2⟩ := plain_step h.1 cs inS
    obtain ⟨h3, h4⟩ := ih h.2
    exact ⟨h1.trans h3, h2.trans h4⟩

/-- A chunk is clean when it triggers no comment and returns the scanner to
the outside-string, non-escaped state. -/
def CleanChunk (l : Str) : Prop :=
  noSlash l false false = true ∧ stAf l false false = (false, false)

theorem cleanChunk_append {a b : Str} (ha : CleanChunk a) (hb : CleanChunk b) :
    CleanChunk (a ++ b) := by
  obtain ⟨ha1, ha2⟩ := ha
  obtain ⟨hb1, hb2⟩ := hb
  constructor
  · rw [noSlash_append, ha2, ha1, hb1]
    rfl
  · rw [stAf_append, ha2]
    exact hb2

theorem cleanChunk_plain (l : Str) (h : l.all plainChar = true) : CleanChunk l :=
  plain_clean l h false

theorem jsonEscape_clean (s : Str) :
    noSlash (jsonEscape s) true false = true ∧ stAf (jsonEscape s) true false = (true, false) := by
  induction s with
  | nil => exact ⟨rfl, rfl⟩
  | cons c cs ih =>
    by_cases h1 : (c == '"') = true
    · rw [jsonEscape, if_pos h1]
      constructor
      · rw [noSlash, if_neg (by simp), if_pos (by simp), noSlash, if_pos rfl]
        exact ih.1
      · rw [stAf, if_neg (by simp), if_pos (by simp), stAf, if_pos rfl]
        exact ih.2
    · by_cases h2 : (c == '\\') = true
      · rw [jsonEscape, if_neg h1, if_pos h2]
        constructor
        · rw [noSlash, if_neg (by simp), if_pos (by simp), noSlash, if_pos rfl]
          exact ih.1
        · rw [stAf, if_neg (by simp), if_pos (by simp), stAf, if_pos rfl]
          exact ih.2
      · rw [jsonEscape, if_neg h1, if_neg h2]
        constructor
        · rw [noSlash, if_neg (by simp), if_neg (by simp [h2]), if_neg h1,
            if_neg (by simp)]
          exact ih.1
        · rw [stAf, if_neg (by simp), if_neg (by simp [h2]), if_neg h1]
          exact ih.2

theorem quoted_open_noSlash (s : Str) : noSlash ('"' :: jsonEscape s) false false = true := by
  rw [noSlash, if_neg (by simp), if_neg (by simp),
    if_pos (show ('"' == '"') = true from rfl)]
  simpa using (jsonEscape_clean s).1

theorem quoted_open_stAf (s : Str) : stAf ('"' :: jsonEscape s) false false = (true, false) := by
  rw [stAf, if_neg (by simp), if_neg (by simp),
    if_pos (show ('"' == '"') = true from rfl)]
  simpa using (jsonEscape_clean s).2

theorem strToken_clean (s : Str) : CleanChunk (strToken s) := by
  constructor
  · show noSlash (('"' :: jsonEscape s) ++ ['"']) false false = true
    rw [noSlash_append, quoted_open_stAf s, quoted_open_noSlash s]
    decide
  · show stAf (('"' :: jsonEscape s) ++ ['"']) false false = (false, false)
    rw [stAf_append, quoted_open_stAf s]
    decide

theorem digitChar_plain (m : Nat) : plainChar (digitChar m) = true := by
  unfold digitChar
  split_ifs <;> decide

theorem natDigits_plain (f : Nat) : ∀ n, (natDigits f n).all plainChar = true := by
  induction f with
  | zero => intro n; rfl
  | succ f ih =>
    intro n
    rw [natDigits]
    split
    · simp [digitChar_plain]
    · rw [List.all_append]
      simp [ih (n / 10), digitChar_plain]

theorem natSer_clean (n : Nat) : CleanChunk (natSer n) :=
  cleanChunk_plain _ (natDigits_plain (n + 1) n)

theorem cleanChunk_nil : CleanChunk [] := ⟨rfl, rfl⟩

mutual
theorem Json.ser_cleanV : ∀ v : Json, CleanChunk v.ser
  | .jnull => cleanChunk_plain _ (by decide)
  | .jbool true => cleanChunk_plain _ (by decide)
  | .jbool false => cleanChunk_plain _ (by decide)
  | .jnum n => natSer_clean n
  | .jstr s => strToken_clean s
  | .jarr a => by
    rw [Json.ser]
    show CleanChunk ((['['] ++ JsonArr.ser a) ++ [']'])
    exact cleanChunk_append
      (cleanChunk_append (cleanChunk_plain _ (by decide)) (JsonArr.ser_cleanA a))
      (cleanChunk_plain _ (by decide))
  | .jobj o => by
    rw [Json.ser]
    show CleanChunk ((['\x7b'] ++ JsonObj.ser o) ++ ['\x7d'])
    exact cleanChunk_append
      (cleanChunk_append (cleanChunk_plain _ (by decide)) (JsonObj.ser_cleanO o))
      (cleanChunk_plain _ (by decide))
theorem JsonArr.ser_cleanA : ∀ a : JsonArr, CleanChunk a.ser
  | .anil => cleanChunk_nil
  | .acons v .anil => by
    rw [JsonArr.ser]
    exact Json.ser_cleanV v
  | .acons v (.acons w rest) => by
    rw [JsonArr.ser]
    show CleanChunk (Json.ser v ++ ([','] ++ JsonArr.ser (.acons w rest)))
    exact cleanChunk_append (Json.ser_cleanV v)
      (cleanChunk_append (cleanChunk_plain _ (by decide))
        (JsonArr.ser_cleanA (.acons w rest)))
theorem JsonObj.ser_cleanO : ∀ o : JsonObj, CleanChunk o.ser
  | .onil => cleanChunk_nil
  | .ocons k v .onil => by
    rw [JsonObj.ser]
    show CleanChunk (strToken k ++ ([':'] ++ Json.ser v))
    exact cleanChunk_append (strToken_clean k)
      (cleanChunk_append (cleanChunk_plain _ (by decide)) (Json.ser_cleanV v))
  | .ocons k v (.ocons k' v' rest) => by
    rw [JsonObj.ser]
    show CleanChunk ((strToken k ++ ([':'] ++ Json.ser v)) ++
      ([','] ++ JsonObj.ser (.ocons k' v' rest)))
    exact cleanChunk_append
      (cleanChunk_append (strToken_clean k)
        (cleanChunk_append (cleanChunk_plain _ (by decide)) (Json.ser_cleanV v)))
      (cleanChunk_append (cleanChunk_plain _ (by decide))
        (JsonObj.ser_cleanO (.ocons k' v' rest)))
end

/-- C1 (amended): the JSONC stripping step of `installToWindowsTerminal`
(comment removal followed by trailing-comma cleanup) is the identity on
every already-valid JSON document whose string literals contain no comma
followed, across whitespace, by `}` or `]`.  In particular any `//` or
`/* */` sequence inside a string literal survives unchanged.  (Without the
comma restriction the property fails, see the counterexample: the
trailing-comma regex is not string-aware.) -/
theorem jsonc_strip_identity (v : Json) (h : noCommaCloser v.ser = true) :
    stripJsoncChars v.ser = v.ser := by
  have hc := Json.ser_cleanV v
  show stripTrailingCommasF (stripComments v.ser).length (scanJsoncF v.ser.length v.ser false false) = v.ser
  have h1 : scanJsoncF v.ser.length v.ser false false = v.ser :=
    scanJsoncF_of_noSlash v.ser v.ser.length false false hc.1 (Nat.le_refl _)
  rw [show stripComments v.ser = v.ser from h1, h1]
  exact stripTrailingCommasF_of_noCC v.ser v.ser.length h (Nat.le_refl _)

/-- C1 counterexample: the already-valid JSON document `[",}"]`
(serialization of the one-element array holding the two-character string
`,}`) is changed by the stripping step — the trailing-comma regex is not
string-aware and deletes the comma inside the string literal, so the step
is not the identity on every already-valid JSON document. -/
theorem jsonc_strip_counterexample :
    Json.ser (.jarr (.acons (.jstr [',', '\x7d']) .anil)) =
      ('[' :: '"' :: ',' :: '\x7d' :: '"' :: ']' :: []) ∧
    stripJsoncChars ('[' :: '"' :: ',' :: '\x7d' :: '"' :: ']' :: []) =
      ('[' :: '"' :: '\x7d' :: '"' :: ']' :: []) ∧
    ('[' :: '"' :: '\x7d' :: '"' :: ']' :: [] : Str) ≠
      ('[' :: '"' :: ',' :: '\x7d' :: '"' :: ']' :: []) := by
  refine ⟨?_, by decide, by decide⟩
  simp [Json.ser, JsonArr.ser, strToken, jsonEscape]

/-- Witness for C1 at the document `["a//b","c/*d*/e"]`: comment-like
sequences inside string literals survive the stripping unchanged. -/
theorem jsonc_strip_identity_witness :
    noCommaCloser (Json.ser (.jarr (.acons (.jstr ['a', '/', '/', 'b'])
      (.acons (.jstr ['c', '/', '*', 'd', '*', '/', 'e']) .anil)))) = true ∧
    stripJsoncChars (Json.ser (.jarr (.acons (.jstr ['a', '/', '/', 'b'])
      (.acons (.jstr ['c', '/', '*', 'd', '*', '/', 'e']) .anil)))) =
    Json.ser (.jarr (.acons (.jstr ['a', '/', '/', 'b'])
      (.acons (.jstr ['c', '/', '*', 'd', '*', '/', 'e']) .anil))) := by
  have hser : Json.ser (.jarr (.acons (.jstr ['a', '/', '/', 'b'])
      (.acons (.jstr ['c', '/', '*', 'd', '*', '/', 'e']) .anil))) =
      ('[' :: '"' :: 'a' :: '/' :: '/' :: 'b' :: '"' :: ',' :: '"' :: 'c' :: '/' :: '*'
        :: 'd' :: '*' :: '/' :: 'e' :: '"' :: ']' :: []) := by
    simp [Json.ser, JsonArr.ser, strToken, jsonEscape]
  have h : noCommaCloser (Json.ser (.jarr (.acons (.jstr ['a', '/', '/', 'b'])
      (.acons (.jstr ['c', '/', '*', 'd', '*', '/', 'e']) .anil)))) = true := by
    rw [hser]
    decide
  exact ⟨h, jsonc_strip_identity _ h⟩

/-! ## Installer models

Every file-system or subprocess effect is an explicit parameter: boolean
outcome flags for writes and `osascript` invocations, environment records
for paths and file contents, an oracle for `JSON.parse`.  Each installer
returns the `InstallResult` the source constructs on the same branch. -/

/-- The shared not-found result `{success:false, path:'', error:'Theme not found'}`. -/
def themeNotFound : InstallResult :=
  { success := false, path := "", instructions := none, error := some "Theme not found" }

/-- `path.join(a, b)`: empty leading segments do not contribute a slash. -/
def pathJoin (a b : String) : String :=
  if a = "" then b else a ++ "/" ++ b

/-- `installToIterm2` (source lines 86-175).  `home` is `app.getPath('home')`;
`writeOk` is the outcome of `fs.writeFileSync`, `applyOk` of the AppleScript
live-apply; `writeErr` the stringified exception. -/
def installToIterm2 (db : ThemeDb) (home : String) (writeOk applyOk : Bool)
    (writeErr : String) : InstallResult :=
  match getThemeColors db.rows with
  | none => themeNotFound
  | some _ =>
    let themeName := getThemeName db.name
    let slugName := slugify themeName
    let profilePath :=
      pathJoin (pathJoin home "Library/Application Support/iTerm2/DynamicProfiles")
        (slugName ++ ".json")
    if writeOk then
      if applyOk then
        { success := true, path := profilePath,
          instructions := some ("Theme \"" ++ themeName ++ "\" applied to iTerm2!"),
          error := none }
      else
        { success := true, path := profilePath,
          instructions := some ("Theme \"" ++ themeName ++
            "\" installed. Open iTerm2 and select it from Profiles menu, or restart iTerm2."),
          error := none }
    else
      { success := false, path := profilePath, instructions := none,
        error := some ("Failed to write profile: " ++ writeErr) }

/-- `themeName.replace(/"/g, '\\"')`. -/
def escapeQuotes : Str → Str
  | [] => []
  | c :: cs => if c == '"' then '\\' :: '"' :: escapeQuotes cs else c :: escapeQuotes cs

def escapedName (themeName : String) : String := ⟨escapeQuotes themeName.data⟩

/-- The `createProfileScript` AppleScript source built by
`installToTerminalApp` (source lines 198-213). -/
def terminalCreateProfileScript (themeName : String) (c : ThemeColors) : String :=
  "\n    tell application \"Terminal\"\n      if not (exists settings set \""
    ++ escapedName themeName
    ++ "\") then\n        make new settings set with properties \x7bname:\""
    ++ escapedName themeName
    ++ "\"\x7d\n      end if\n\n      set targetSettings to settings set \""
    ++ escapedName themeName
    ++ "\"\n      set background color of targetSettings to "
    ++ hexToRGB c.background
    ++ "\n      set normal text color of targetSettings to "
    ++ hexToRGB c.foreground
    ++ "\n      set cursor color of targetSettings to "
    ++ hexToRGB c.cursor
    ++ "\n\n      -- Set as default and startup profile\n      set default settings to targetSettings\n      set startup settings to targetSettings\n    end tell\n  "

/-- The AppleScript source built by `setTerminalDefault` (source lines
280-299). -/
def setTerminalDefaultScript (themeName : String) (c : ThemeColors) : String :=
  "\n    tell application \"Terminal\"\n      -- Create or update the profile (settings set)\n      if not (exists settings set \""
    ++ escapedName themeName
    ++ "\") then\n        set newSettings to make new settings set with properties \x7bname:\""
    ++ escapedName themeName
    ++ "\"\x7d\n      end if\n\n      tell settings set \""
    ++ escapedName themeName
    ++ "\"\n        set background color to "
    ++ hexToRGB c.background
    ++ "\n        set normal text color to "
    ++ hexToRGB c.foreground
    ++ "\n        set cursor color to "
    ++ hexToRGB c.cursor
    ++ "\n      end tell\n\n      -- Set as default profile\n      set default settings to settings set \""
    ++ escapedName themeName
    ++ "\"\n\n      -- Also set startup settings (for new windows)\n      set startup settings to settings set \""
    ++ escapedName themeName
    ++ "\"\n    end tell\n  "

/-- `installToTerminalApp` (source lines 178-260).  `createOk` is the
outcome of the profile-creation script, `applyOk` of the apply-to-open-
windows script. -/
def installToTerminalApp (db : ThemeDb) (createOk applyOk : Bool) : InstallResult :=
  match getThemeColors db.rows with
  | none => themeNotFound
  | some _ =>
    let themeName := getThemeName db.name
    if createOk then
      if applyOk then
        { success := true, path := "",
          instructions := some ("Theme \"" ++ themeName ++
            "\" applied! All open Terminal windows updated."),
          error := none }
      else
        { success := true, path := "",
          instructions := some ("Theme \"" ++ themeName ++
            "\" saved to Terminal profiles. Select it in Terminal → Settings → Profiles, or open a new window."),
          error := none }
    else
      { success := false, path := "", instructions := none,
        error := some "Failed to create Terminal profile. Make sure Terminal.app is running." }

/-- `setTerminalDefault` (source lines 263-316). -/
def setTerminalDefault (db : ThemeDb) (execOk : Bool) (execErr : String) : InstallResult :=
  match getThemeColors db.rows with
  | none => themeNotFound
  | some _ =>
    let themeName := getThemeName db.name
    if execOk then
      { success := true, path := "",
        instructions := some ("Theme \"" ++ themeName ++
          "\" is now the default Terminal.app profile! New windows will use this theme."),
        error := none }
    else
      { success := false, path := "", instructions := none,
        error := some ("Failed to set default: " ++ execErr) }

/-! ## Windows Terminal (source lines 319-498) -/

/-- A Windows Terminal color scheme entry as built at source lines 439-461. -/
structure WTScheme where
  name : String
  background : String
  foreground : String
  cursorColor : String
  selectionBackground : String
  black : String
  red : String
  green : String
  yellow : String
  blue : String
  purple : String
  cyan : String
  white : String
  brightBlack : String
  brightRed : String
  brightGreen : String
  brightYellow : String
  brightBlue : String
  brightPurple : String
  brightCyan : String
  brightWhite : String
deriving DecidableEq, Repr

/-- The parts of the parsed settings document the installer reads or
writes: the `schemes` array (absent modelled as `[]`, matching the
`settings.schemes = []` initialization) and
`profiles.defaults.colorScheme`. -/
structure WTSettings where
  schemes : List WTScheme
  defaultColorScheme : Option String
deriving DecidableEq, Repr

def mkWTScheme (themeName : String) (c : ThemeColors) : WTScheme :=
  { name := themeName
    background := c.background
    foreground := c.foreground
    cursorColor := c.cursor
    selectionBackground := c.selection
    black := c.ansi.black
    red := c.ansi.red
    green := c.ansi.green
    yellow := c.ansi.yellow
    blue := c.ansi.blue
    purple := c.ansi.magenta
    cyan := c.ansi.cyan
    white := c.ansi.white
    brightBlack := c.ansi.brightBlack
    brightRed := c.ansi.brightRed
    brightGreen := c.ansi.brightGreen
    brightYellow := c.ansi.brightYellow
    brightBlue := c.ansi.brightBlue
    brightPurple := c.ansi.brightMagenta
    brightCyan := c.ansi.brightCyan
    brightWhite := c.ansi.brightWhite }

/-- The settings mutation of `installToWindowsTerminal` (source lines
463-481): remove any scheme with the installed name, append the new
scheme, point the default profile at it. -/
def wtApply (settings : WTSettings) (themeName : String) (c : ThemeColors) : WTSettings :=
  { schemes := settings.schemes.filter (fun s => s.name != themeName) ++ [mkWTScheme themeName c]
    defaultColorScheme := some themeName }

/-- File-system environment of `installToWindowsTerminal`: which of the
three candidate settings files exist, the local-app-data root, the content
of the chosen file, and the read/write outcomes. -/
structure WTEnv where
  stableExists : Bool
  previewExists : Bool
  unpackagedExists : Bool
  localAppData : String
  content : String
  readOk : Bool
  writeOk : Bool

/-- Settings-path probing (source lines 328-349). -/
def wtSettingsPath (env : WTEnv) : String :=
  if env.stableExists then
    pathJoin env.localAppData
      "Packages/Microsoft.WindowsTerminal_8wekyb3d8bbwe/LocalState/settings.json"
  else if env.previewExists then
    pathJoin env.localAppData
      "Packages/Microsoft.WindowsTerminalPreview_8wekyb3d8bbwe/LocalState/settings.json"
  else if env.unpackagedExists then
    pathJoin env.localAppData "Microsoft/Windows Terminal/settings.json"
  else ""

/-- `installToWindowsTerminal` (source lines 319-498).  `parseJson` is the
`JSON.parse` oracle, applied to the JSONC-stripped content; the second
component is the settings document written back on success. -/
def installToWindowsTerminal (db : ThemeDb) (env : WTEnv)
    (parseJson : String → Option WTSettings) (readErr parseErr writeErr : String) :
    InstallResult × Option WTSettings :=
  match getThemeColors db.rows with
  | none => (themeNotFound, none)
  | some colors =>
    let themeName := getThemeName db.name
    let actualSettingsPath := wtSettingsPath env
    if actualSettingsPath = "" then
      ({ success := false, path := "", instructions := none,
         error := some "Windows Terminal settings not found. Is Windows Terminal installed?" },
        none)
    else if !env.readOk then
      ({ success := false, path := actualSettingsPath, instructions := none,
         error := some ("Failed to update Windows Terminal settings: " ++ readErr) }, none)
    else
      match parseJson (stripJsonc env.content) with
      | none =>
        ({ success := false, path := actualSettingsPath, instructions := none,
           error := some ("Failed to parse Windows Terminal settings: " ++ parseErr) }, none)
      | some settings =>
        let settings' := wtApply settings themeName colors
        if env.writeOk then
          ({ success := true, path := actualSettingsPath,
             instructions := some ("Theme \"" ++ themeName ++
               "\" applied to Windows Terminal! All open windows updated."),
             error := none }, some settings')
        else
          ({ success := false, path := actualSettingsPath, instructions := none,
             error := some ("Failed to update Windows Terminal settings: " ++ writeErr) },
            none)

/-! ## Alacritty (source lines 501-598) -/

inductive Platform where
  | darwin
  | win32
  | linux
deriving DecidableEq, Repr

/-- One pass of the global regex replace
`\[colors\.X\][\s\S]*?(?=\[|$)` with empty replacement: at an occurrence
of the section literal, drop it and everything up to (not including) the
next `[` or the end, then continue scanning there; elsewhere copy. -/
def stripSecF : Nat → Str → Str → Str
  | 0, _, _ => []
  | fuel + 1, lit, s =>
    match s with
    | [] => []
    | c :: cs =>
      if lit.isPrefixOf (c :: cs) then
        stripSecF fuel lit (((c :: cs).drop lit.length).dropWhile (fun x => !(x == '[')))
      else c :: stripSecF fuel lit cs

def stripSec (lit : Str) (s : Str) : Str := stripSecF s.length lit s

def hdrLit1 : Str := "# ShellShade Theme:".data

def hdrLit2 : Str := "# Generated by ShellShade".data

/-- The global regex replace
`# ShellShade Theme:.*\n# Generated by ShellShade\n*` with empty
replacement: at the tag, `.*` takes the rest of the line, the next line
must start with the generated-by literal, then trailing newlines are
consumed greedily; a failed match advances one character. -/
def stripHdrF : Nat → Str → Str
  | 0, _ => []
  | fuel + 1, s =>
    match s with
    | [] => []
    | c :: cs =>
      if hdrLit1.isPrefixOf (c :: cs) then
        match ((c :: cs).drop hdrLit1.length).dropWhile (fun x => !(x == '\n')) with
        | [] => c :: stripHdrF fuel cs
        | _ :: r2 =>
          if hdrLit2.isPrefixOf r2 then
            stripHdrF fuel ((r2.drop hdrLit2.length).dropWhile (fun x => x == '\n'))
          else c :: stripHdrF fuel cs
      else c :: stripHdrF fuel cs

def stripHdr (s : Str) : Str := stripHdrF s.length s

def trimStart (s : Str) : Str := s.dropWhile isJsWs

def trimEnd (s : Str) : Str := (s.reverse.dropWhile isJsWs).reverse

/-- JavaScript `String.prototype.trim` (ASCII whitespace). -/
def jsTrim (s : Str) : Str := trimStart (trimEnd s)

/-- The strip pipeline applied to an existing config (source lines
570-579): the five color-section replaces, the generated-header replace,
then `.trim()`. -/
def alacrittyStrip (s : Str) : Str :=
  jsTrim (stripHdr
    (stripSec "[colors.bright]".data
      (stripSec "[colors.normal]".data
        (stripSec "[colors.selection]".data
          (stripSec "[colors.cursor]".data
            (stripSec "[colors.primary]".data s))))))

/-- The generated TOML block `tomlContent` (source lines 530-564). -/
def alacrittyToml (themeName : String) (c : ThemeColors) : String :=
  "# ShellShade Theme: " ++ themeName ++ "\n# Generated by ShellShade\n\n[colors.primary]\nbackground = \""
    ++ c.background ++ "\"\nforeground = \"" ++ c.foreground
    ++ "\"\n\n[colors.cursor]\ntext = \"" ++ c.cursorText ++ "\"\ncursor = \"" ++ c.cursor
    ++ "\"\n\n[colors.selection]\ntext = \"" ++ c.selectionText ++ "\"\nbackground = \""
    ++ c.selection ++ "\"\n\n[colors.normal]\nblack = \"" ++ c.ansi.black ++ "\"\nred = \""
    ++ c.ansi.red ++ "\"\ngreen = \"" ++ c.ansi.green ++ "\"\nyellow = \"" ++ c.ansi.yellow
    ++ "\"\nblue = \"" ++ c.ansi.blue ++ "\"\nmagenta = \"" ++ c.ansi.magenta
    ++ "\"\ncyan = \"" ++ c.ansi.cyan ++ "\"\nwhite = \"" ++ c.ansi.white
    ++ "\"\n\n[colors.bright]\nblack = \"" ++ c.ansi.brightBlack ++ "\"\nred = \""
    ++ c.ansi.brightRed ++ "\"\ngreen = \"" ++ c.ansi.brightGreen ++ "\"\nyellow = \""
    ++ c.ansi.brightYellow ++ "\"\nblue = \"" ++ c.ansi.brightBlue ++ "\"\nmagenta = \""
    ++ c.ansi.brightMagenta ++ "\"\ncyan = \"" ++ c.ansi.brightCyan ++ "\"\nwhite = \""
    ++ c.ansi.brightWhite ++ "\"\n"

/-- The content written by `installToAlacritty` (source lines 566-584):
strip an existing config, then prepend it (when nonempty) to the new
block. -/
def alacrittyMergedContent (existing : Option String) (themeName : String)
    (c : ThemeColors) : String :=
  let existingContent : String :=
    match existing with
    | some prior => ⟨alacrittyStrip prior.data⟩
    | none => ""
  if existingContent = "" then alacrittyToml themeName c
  else existingContent ++ "\n\n" ++ alacrittyToml themeName c

/-- Environment of `installToAlacritty`: platform, the `APPDATA` and
`XDG_CONFIG_HOME` variables, the home directory, the existing config file
content (if the file exists) and the write outcome. -/
structure AlacrittyEnv where
  platform : Platform
  appData : Option String
  xdgConfigHome : Option String
  home : String
  existing : Option String
  writeOk : Bool

/-- Config-path resolution (source lines 510-521). -/
def alacrittyConfigPath (env : AlacrittyEnv) : String :=
  match env.platform with
  | .win32 => pathJoin (jsOrDefault env.appData "") "alacritty/alacritty.toml"
  | .darwin => pathJoin env.home ".config/alacritty/alacritty.toml"
  | .linux =>
    pathJoin (jsOrDefault env.xdgConfigHome (pathJoin env.home ".config"))
      "alacritty/alacritty.toml"

/-- A file write: target path and content. -/
structure FileWrite where
  path : String
  content : String
deriving DecidableEq, Repr

/-- `installToAlacritty` (source lines 501-598); the second component is
the write performed on success. -/
def installToAlacritty (db : ThemeDb) (env : AlacrittyEnv) (writeErr : String) :
    InstallResult × Option FileWrite :=
  match getThemeColors db.rows with
  | none => (themeNotFound, none)
  | some colors =>
    let themeName := getThemeName db.name
    let configPath := alacrittyConfigPath env
    let finalContent := alacrittyMergedContent env.existing themeName colors
    if env.writeOk then
      ({ success := true, path := configPath,
         instructions := some ("Theme \"" ++ themeName ++
           "\" applied to Alacritty! Restart Alacritty to see changes."),
         error := none }, some ⟨configPath, finalContent⟩)
    else
      ({ success := false, path := configPath, instructions := none,
         error := some ("Failed to update Alacritty config: " ++ writeErr) }, none)

/-! ## Kitty (source lines 601-688) -/

/-- Environment of `installToKitty`: platform, `XDG_CONFIG_HOME`, home,
the existing `kitty.conf` content, and the combined outcome of its
file-system operations. -/
structure KittyEnv where
  platform : Platform
  xdgConfigHome : Option String
  home : String
  existingConf : Option String
  opsOk : Bool

/-- Config-dir resolution (source lines 610-618). -/
def kittyConfigDir (env : KittyEnv) : String :=
  match env.platform with
  | .darwin => pathJoin env.home ".config/kitty"
  | _ => pathJoin (jsOrDefault env.xdgConfigHome (pathJoin env.home ".config")) "kitty"

/-- `installToKitty` (source lines 601-688). -/
def installToKitty (db : ThemeDb) (env : KittyEnv) (opsErr : String) : InstallResult :=
  match getThemeColors db.rows with
  | none => themeNotFound
  | some _ =>
    let themeName := getThemeName db.name
    let themePath := pathJoin (kittyConfigDir env) "current-theme.conf"
    if env.opsOk then
      { success := true, path := themePath,
        instructions := some ("Theme \"" ++ themeName ++
          "\" applied to Kitty! Press Ctrl+Shift+F5 to reload or restart Kitty."),
        error := none }
    else
      { success := false, path := themePath, instructions := none,
        error := some ("Failed to update Kitty config: " ++ opsErr) }

/-! ## C2: the theme-not-found contract -/

theorem append_ne_of_long {p s t : String} (h : t.length < p.length) : p ++ s ≠ t := by
  intro he
  have hl := congrArg String.length he
  rw [String.length_append] at hl
  omega

theorem getThemeColors_none_iff (rows : List (String × String)) :
    getThemeColors rows = none ↔ rows = [] := by
  unfold getThemeColors
  split <;> simp_all

theorem getThemeColors_ne_nil {rows : List (String × String)} (h : rows ≠ []) :
    getThemeColors rows = some
      { background := getCol rows "background" "#000000"
        foreground := getCol rows "foreground" "#ffffff"
        cursor := getCol rows "cursor" "#ffffff"
        cursorText := getCol rows "cursorText" "#000000"
        selection := getCol rows "selection" "#444444"
        selectionText := getCol rows "selectionText" "#ffffff"
        ansi :=
        { black := getCol rows "ansi_black" "#000000"
          red := getCol rows "ansi_red" "#ff0000"
          green := getCol rows "ansi_green" "#00ff00"
          yellow := getCol rows "ansi_yellow" "#ffff00"
          blue := getCol rows "ansi_blue" "#0000ff"
          magenta := getCol rows "ansi_magenta" "#ff00ff"
          cyan := getCol rows "ansi_cyan" "#00ffff"
          white := getCol rows "ansi_white" "#ffffff"
          brightBlack := getCol rows "ansi_brightBlack" "#666666"
          brightRed := getCol rows "ansi_brightRed" "#ff6666"
          brightGreen := getCol rows "ansi_brightGreen" "#66ff66"
          brightYellow := getCol rows "ansi_brightYellow" "#ffff66"
          brightBlue := getCol rows "ansi_brightBlue" "#6666ff"
          brightMagenta := getCol rows "ansi_brightMagenta" "#ff66ff"
          brightCyan := getCol rows "ansi_brightCyan" "#66ffff"
          brightWhite := getCol rows "ansi_brightWhite" "#ffffff" } } := by
  rw [getThemeColors, if_neg h]

theorem getCol_of_missing (rows : List (String × String)) (k d : String)
    (h : mapGet rows k = none) : getCol rows k d = d := by
  rw [getCol, h]
  rfl

theorem iterm2_nf_iff (db : ThemeDb) (home : String) (w a : Bool) (we : String) :
    installToIterm2 db home w a we = themeNotFound ↔ db.rows = [] := by
  constructor
  · intro he
    by_contra hne
    rw [installToIterm2, getThemeColors_ne_nil hne] at he
    split_ifs at he with hw ha
    · exact absurd (congrArg InstallResult.success he) (by simp [themeNotFound])
    · exact absurd (congrArg InstallResult.success he) (by simp [themeNotFound])
    · have h2 := congrArg InstallResult.error he
      simp only [themeNotFound, Option.some.injEq] at h2
      exact append_ne_of_long (by decide) h2
  · intro h0
    rw [installToIterm2, (getThemeColors_none_iff db.rows).mpr h0]

theorem terminalApp_nf_iff (db : ThemeDb) (cOk aOk : Bool) :
    installToTerminalApp db cOk aOk = themeNotFound ↔ db.rows = [] := by
  constructor
  · intro he
    by_contra hne
    rw [installToTerminalApp, getThemeColors_ne_nil hne] at he
    split_ifs at he with hw ha
    · exact absurd (congrArg InstallResult.success he) (by simp [themeNotFound])
    · exact absurd (congrArg InstallResult.success he) (by simp [themeNotFound])
    · have h2 := congrArg InstallResult.error he
      simp only [themeNotFound, Option.some.injEq] at h2
      exact absurd h2 (by decide)
  · intro h0
    rw [installToTerminalApp, (getThemeColors_none_iff db.rows).mpr h0]

theorem setDefault_nf_iff (db : ThemeDb) (execOk : Bool) (ee : String) :
    setTerminalDefault db execOk ee = themeNotFound ↔ db.rows = [] := by
  constructor
  · intro he
    by_contra hne
    rw [setTerminalDefault, getThemeColors_ne_nil hne] at he
    split_ifs at he with hw
    · exact absurd (congrArg InstallResult.success he) (by simp [themeNotFound])
    · have h2 := congrArg InstallResult.error he
      simp only [themeNotFound, Option.some.injEq] at h2
      exact append_ne_of_long (by decide) h2
  · intro h0
    rw [setTerminalDefault, (getThemeColors_none_iff db.rows).mpr h0]

theorem windowsTerminal_nf_iff (db : ThemeDb) (env : WTEnv)
    (pj : String → Option WTSettings) (re pe wwe : String) :
    (installToWindowsTerminal db env pj re pe wwe).1 = themeNotFound ↔ db.rows = [] := by
  constructor
  · intro he
    by_contra hne
    rw [installToWindowsTerminal, getThemeColors_ne_nil hne] at he
    cases hpj : pj (stripJsonc env.content) with
    | none =>
      simp only [hpj] at he
      split_ifs at he with h1 h2
      · have h3 := congrArg InstallResult.error he
        simp only [themeNotFound, Option.some.injEq] at h3
        exact absurd h3 (by decide)
      · have h3 := congrArg InstallResult.error he
        simp only [themeNotFound, Option.some.injEq] at h3
        exact append_ne_of_long (by decide) h3
      · have h3 := congrArg InstallResult.error he
        simp only [themeNotFound, Option.some.injEq] at h3
        exact append_ne_of_long (by decide) h3
    | some settings =>
      simp only [hpj] at he
      split_ifs at he with h1 h2 h3
      · have h4 := congrArg InstallResult.error he
        simp only [themeNotFound, Option.some.injEq] at h4
        exact absurd h4 (by decide)
      · have h4 := congrArg InstallResult.error he
        simp only [themeNotFound, Option.some.injEq] at h4
        exact append_ne_of_long (by decide) h4
      · exact absurd (congrArg InstallResult.success he) (by simp [themeNotFound])
      · have h4 := congrArg InstallResult.error he
        simp only [themeNotFound, Option.some.injEq] at h4
        exact append_ne_of_long (by decide) h4
  · intro h0
    rw [installToWindowsTerminal, (getThemeColors_none_iff db.rows).mpr h0]

theorem alacritty_nf_iff (db : ThemeDb) (env : AlacrittyEnv) (ae : String) :
    (installToAlacritty db env ae).1 = themeNotFound ↔ db.rows = [] := by
  constructor
  · intro he
    by_contra hne
    rw [installToAlacritty, getThemeColors_ne_nil hne] at he
    simp only at he
    split_ifs at he with hw
    · exact absurd (congrArg InstallResult.success he) (by simp [themeNotFound])
    · have h2 := congrArg InstallResult.error he
      simp only [themeNotFound, Option.some.injEq] at h2
      exact append_ne_of_long (by decide) h2
  · intro h0
    rw [installToAlacritty, (getThemeColors_none_iff db.rows).mpr h0]

theorem kitty_nf_iff (db : ThemeDb) (env : KittyEnv) (ke : String) :
    installToKitty db env ke = themeNotFound ↔ db.rows = [] := by
  constructor
  · intro he
    by_contra hne
    rw [installToKitty, getThemeColors_ne_nil hne] at he
    split_ifs at he with hw
    · exact absurd (congrArg InstallResult.success he) (by simp [themeNotFound])
    · have h2 := congrArg InstallResult.error he
      simp only [themeNotFound, Option.some.injEq] at h2
      exact append_ne_of_long (by decide) h2
  · intro h0
    rw [installToKitty, (getThemeColors_none_iff db.rows).mpr h0]

/-- C2: each of the six installers returns the not-found result
`{success:false, error:"Theme not found", path:""}` exactly when no color
rows exist for the identifier; when rows exist, lookup never fails,
missing color keys fall back to their fixed defaults and a missing theme
name becomes "Untitled". -/
theorem theme_not_found_contract (db : ThemeDb)
    (home : String) (w a : Bool) (we : String) (cOk aOk execOk : Bool) (ee : String)
    (wenv : WTEnv) (pj : String → Option WTSettings) (re pe wwe : String)
    (aenv : AlacrittyEnv) (ae : String) (kenv : KittyEnv) (ke : String) :
    ((installToIterm2 db home w a we = themeNotFound) ↔ db.rows = []) ∧
    ((installToTerminalApp db cOk aOk = themeNotFound) ↔ db.rows = []) ∧
    ((setTerminalDefault db execOk ee = themeNotFound) ↔ db.rows = []) ∧
    (((installToWindowsTerminal db wenv pj re pe wwe).1 = themeNotFound) ↔ db.rows = []) ∧
    (((installToAlacritty db aenv ae).1 = themeNotFound) ↔ db.rows = []) ∧
    ((installToKitty db kenv ke = themeNotFound) ↔ db.rows = []) ∧
    (db.rows ≠ [] → ∃ cs, getThemeColors db.rows = some cs) ∧
    (db.name = none → getThemeName db.name = "Untitled") ∧
    (∀ k d, mapGet db.rows k = none → getCol db.rows k d = d) ∧
    (db.rows ≠ [] → mapGet db.rows "background" = none →
      ∃ cs, getThemeColors db.rows = some cs ∧ cs.background = "#000000") ∧
    (db.rows ≠ [] → mapGet db.rows "ansi_brightRed" = none →
      ∃ cs, getThemeColors db.rows = some cs ∧ cs.ansi.brightRed = "#ff6666") := by
  refine ⟨iterm2_nf_iff db home w a we, terminalApp_nf_iff db cOk aOk,
    setDefault_nf_iff db execOk ee, windowsTerminal_nf_iff db wenv pj re pe wwe,
    alacritty_nf_iff db aenv ae, kitty_nf_iff db kenv ke, ?_, ?_, ?_, ?_, ?_⟩
  · intro hne
    exact ⟨_, getThemeColors_ne_nil hne⟩
  · intro hname
    rw [hname]
    rfl
  · intro k d hk
    exact getCol_of_missing db.rows k d hk
  · intro hne hmiss
    exact ⟨_, getThemeColors_ne_nil hne, getCol_of_missing db.rows _ _ hmiss⟩
  · intro hne hmiss
    exact ⟨_, getThemeColors_ne_nil hne, getCol_of_missing db.rows _ _ hmiss⟩

/-- Witness for C2 at concrete databases: an empty row set yields the
not-found result on every installer; a one-row database never does, and
its missing keys take the documented defaults. -/
theorem theme_not_found_contract_witness :
    (installToIterm2 ⟨[], none⟩ "/h" true true "e" = themeNotFound) ∧
    (installToTerminalApp ⟨[], none⟩ true true = themeNotFound) ∧
    (setTerminalDefault ⟨[], none⟩ true "e" = themeNotFound) ∧
    ((installToWindowsTerminal ⟨[], none⟩ ⟨true, false, false, "C:", "\x7b\x7d", true, true⟩
      (fun _ => none) "r" "p" "w").1 = themeNotFound) ∧
    ((installToAlacritty ⟨[], none⟩ ⟨.linux, none, none, "/h", none, true⟩ "a").1 = themeNotFound) ∧
    (installToKitty ⟨[], none⟩ ⟨.linux, none, "/h", none, true⟩ "k" = themeNotFound) ∧
    (installToIterm2 ⟨[("foreground", "#abcdef")], none⟩ "/h" true true "e" ≠ themeNotFound) ∧
    (getThemeName (none : Option String) = "Untitled") ∧
    (∃ cs, getThemeColors [("foreground", "#abcdef")] = some cs ∧ cs.background = "#000000") := by
  have hempty := theme_not_found_contract ⟨[], none⟩ "/h" true true "e" true true true "e"
    ⟨true, false, false, "C:", "\x7b\x7d", true, true⟩ (fun _ => none) "r" "p" "w"
    ⟨.linux, none, none, "/h", none, true⟩ "a" ⟨.linux, none, "/h", none, true⟩ "k"
  have hfull := theme_not_found_contract ⟨[("foreground", "#abcdef")], none⟩ "/h" true true "e"
    true true true "e" ⟨true, false, false, "C:", "\x7b\x7d", true, true⟩ (fun _ => none)
    "r" "p" "w" ⟨.linux, none, none, "/h", none, true⟩ "a" ⟨.linux, none, "/h", none, true⟩ "k"
  refine ⟨hempty.1.mpr rfl, hempty.2.1.mpr rfl, hempty.2.2.1.mpr rfl,
    hempty.2.2.2.1.mpr rfl, hempty.2.2.2.2.1.mpr rfl, hempty.2.2.2.2.2.1.mpr rfl,
    ?_, hfull.2.2.2.2.2.2.2.1 rfl, hfull.2.2.2.2.2.2.2.2.2.1 (by decide) (by decide)⟩
  intro he
  exact absurd (hfull.1.mp he) (by decide)

/-! ## C3: live-apply failure is non-fatal -/

/-- C3: for the two installers with a live-apply step, once the
file/profile write succeeded the result has `success = true` and no
`error`, whatever the live-apply outcome; the apply outcome changes only
the instructions text (success, path and error agree across outcomes). -/
theorem live_apply_nonfatal (db : ThemeDb) (home we : String) (h : db.rows ≠ []) :
    (∀ a, (installToIterm2 db home true a we).success = true ∧
      (installToIterm2 db home true a we).error = none) ∧
    (installToIterm2 db home true true we).path = (installToIterm2 db home true false we).path ∧
    (∀ a, (installToTerminalApp db true a).success = true ∧
      (installToTerminalApp db true a).error = none) ∧
    (installToTerminalApp db true true).path = (installToTerminalApp db true false).path := by
  have hcs := getThemeColors_ne_nil h
  refine ⟨?_, ?_, ?_, ?_⟩
  · intro a
    rw [installToIterm2, hcs]
    cases a <;> exact ⟨rfl, rfl⟩
  · simp only [installToIterm2, hcs]
    simp
  · intro a
    rw [installToTerminalApp, hcs]
    cases a <;> exact ⟨rfl, rfl⟩
  · simp only [installToTerminalApp, hcs]
    simp

/-- Witness for C3 at a one-row database. -/
theorem live_apply_nonfatal_witness :
    ((⟨[("background", "#111111")], some "T"⟩ : ThemeDb).rows ≠ []) ∧
    ((∀ a, (installToIterm2 ⟨[("background", "#111111")], some "T"⟩ "/h" true a "e").success = true ∧
      (installToIterm2 ⟨[("background", "#111111")], some "T"⟩ "/h" true a "e").error = none) ∧
    (installToIterm2 ⟨[("background", "#111111")], some "T"⟩ "/h" true true "e").path =
      (installToIterm2 ⟨[("background", "#111111")], some "T"⟩ "/h" true false "e").path ∧
    (∀ a, (installToTerminalApp ⟨[("background", "#111111")], some "T"⟩ true a).success = true ∧
      (installToTerminalApp ⟨[("background", "#111111")], some "T"⟩ true a).error = none) ∧
    (installToTerminalApp ⟨[("background", "#111111")], some "T"⟩ true true).path =
      (installToTerminalApp ⟨[("background", "#111111")], some "T"⟩ true false).path) :=
  ⟨by decide, live_apply_nonfatal ⟨[("background", "#111111")], some "T"⟩ "/h" "e" (by decide)⟩

/-! ## C10: the Terminal.app scripts transmit exactly three colors -/

theorem strExt {a b : String} (h : a.data = b.data) : a = b := by
  cases a
  cases b
  simp only at h
  rw [h]

/-- Solid color sets 2 (every field the same hex), used for concrete
instances. -/
def solidAnsi (h : String) : AnsiColors := ⟨h, h, h, h, h, h, h, h, h, h, h, h, h, h, h, h⟩

def solidColors (h : String) : ThemeColors := ⟨h, h, h, h, h, h, solidAnsi h⟩

/-- C10: the AppleScript sources generated by `installToTerminalApp` and
`setTerminalDefault` set only background color, normal text color and
cursor color: they are unchanged under any change of the other twenty
theme colors (cursorText, selection, selectionText and the 16 ANSI
colors), and each does contain the three `set ... color` commands rendered
from exactly those three fields. -/
theorem terminal_scripts_three_colors (name : String) (c c' : ThemeColors)
    (hb : c.background = c'.background) (hf : c.foreground = c'.foreground)
    (hc : c.cursor = c'.cursor) :
    terminalCreateProfileScript name c = terminalCreateProfileScript name c' ∧
    setTerminalDefaultScript name c = setTerminalDefaultScript name c' ∧
    (∃ x y : String, terminalCreateProfileScript name c =
      x ++ ("set background color of targetSettings to " ++ hexToRGB c.background) ++ y) ∧
    (∃ x y : String, terminalCreateProfileScript name c =
      x ++ ("set normal text color of targetSettings to " ++ hexToRGB c.foreground) ++ y) ∧
    (∃ x y : String, terminalCreateProfileScript name c =
      x ++ ("set cursor color of targetSettings to " ++ hexToRGB c.cursor) ++ y) ∧
    (∃ x y : String, setTerminalDefaultScript name c =
      x ++ ("set background color to " ++ hexToRGB c.background) ++ y) ∧
    (∃ x y : String, setTerminalDefaultScript name c =
      x ++ ("set normal text color to " ++ hexToRGB c.foreground) ++ y) ∧
    (∃ x y : String, setTerminalDefaultScript name c =
      x ++ ("set cursor color to " ++ hexToRGB c.cursor) ++ y) := by
  refine ⟨?_, ?_, ?_, ?_, ?_, ?_, ?_, ?_⟩
  · simp only [terminalCreateProfileScript, hb, hf, hc]
  · simp only [setTerminalDefaultScript, hb, hf, hc]
  · refine ⟨"\n    tell application \"Terminal\"\n      if not (exists settings set \""
      ++ escapedName name ++ "\") then\n        make new settings set with properties \x7bname:\""
      ++ escapedName name ++ "\"\x7d\n      end if\n\n      set targetSettings to settings set \""
      ++ escapedName name ++ "\"\n      ",
      "\n      set normal text color of targetSettings to " ++ hexToRGB c.foreground
      ++ "\n      set cursor color of targetSettings to " ++ hexToRGB c.cursor
      ++ "\n\n      -- Set as default and startup profile\n      set default settings to targetSettings\n      set startup settings to targetSettings\n    end tell\n  ", ?_⟩
    apply strExt
    simp [terminalCreateProfileScript, String.data_append, List.append_assoc]
  · refine ⟨"\n    tell application \"Terminal\"\n      if not (exists settings set \""
      ++ escapedName name ++ "\") then\n        make new settings set with properties \x7bname:\""
      ++ escapedName name ++ "\"\x7d\n      end if\n\n      set targetSettings to settings set \""
      ++ escapedName name ++ "\"\n      set background color of targetSettings to "
      ++ hexToRGB c.background ++ "\n      ",
      "\n      set cursor color of targetSettings to " ++ hexToRGB c.cursor
      ++ "\n\n      -- Set as default and startup profile\n      set default settings to targetSettings\n      set startup settings to targetSettings\n    end tell\n  ", ?_⟩
    apply strExt
    simp [terminalCreateProfileScript, String.data_append, List.append_assoc]
  · refine ⟨"\n    tell application \"Terminal\"\n      if not (exists settings set \""
      ++ escapedName name ++ "\") then\n        make new settings set with properties \x7bname:\""
      ++ escapedName name ++ "\"\x7d\n      end if\n\n      set targetSettings to settings set \""
      ++ escapedName name ++ "\"\n      set background color of targetSettings to "
      ++ hexToRGB c.background ++ "\n      set normal text color of targetSettings to "
      ++ hexToRGB c.foreground ++ "\n      ",
      "\n\n      -- Set as default and startup profile\n      set default settings to targetSettings\n      set startup settings to targetSettings\n    end tell\n  ", ?_⟩
    apply strExt
    simp [terminalCreateProfileScript, String.data_append, List.append_assoc]
  · refine ⟨"\n    tell application \"Terminal\"\n      -- Create or update the profile (settings set)\n      if not (exists settings set \""
      ++ escapedName name ++ "\") then\n        set newSettings to make new settings set with properties \x7bname:\""
      ++ escapedName name ++ "\"\x7d\n      end if\n\n      tell settings set \""
      ++ escapedName name ++ "\"\n        ",
      "\n        set normal text color to " ++ hexToRGB c.foreground
      ++ "\n        set cursor color to " ++ hexToRGB c.cursor
      ++ "\n      end tell\n\n      -- Set as default profile\n      set default settings to settings set \""
      ++ escapedName name ++ "\"\n\n      -- Also set startup settings (for new windows)\n      set startup settings to settings set \""
      ++ escapedName name ++ "\"\n    end tell\n  ", ?_⟩
    apply strExt
    simp [setTerminalDefaultScript, String.data_append, List.append_assoc]
  · refine ⟨"\n    tell application \"Terminal\"\n      -- Create or update the profile (settings set)\n      if not (exists settings set \""
      ++ escapedName name ++ "\") then\n        set newSettings to make new settings set with properties \x7bname:\""
      ++ escapedName name ++ "\"\x7d\n      end if\n\n      tell settings set \""
      ++ escapedName name ++ "\"\n        set background color to " ++ hexToRGB c.background
      ++ "\n        ",
      "\n        set cursor color to " ++ hexToRGB c.cursor
      ++ "\n      end tell\n\n      -- Set as default profile\n      set default settings to settings set \""
      ++ escapedName name ++ "\"\n\n      -- Also set startup settings (for new windows)\n      set startup settings to settings set \""
      ++ escapedName name ++ "\"\n    end tell\n  ", ?_⟩
    apply strExt
    simp [setTerminalDefaultScript, String.data_append, List.append_assoc]
  · refine ⟨"\n    tell application \"Terminal\"\n      -- Create or update the profile (settings set)\n      if not (exists settings set \""
      ++ escapedName name ++ "\") then\n        set newSettings to make new settings set with properties \x7bname:\""
      ++ escapedName name ++ "\"\x7d\n      end if\n\n      tell settings set \""
      ++ escapedName name ++ "\"\n        set background color to " ++ hexToRGB c.background
      ++ "\n        set normal text color to " ++ hexToRGB c.foreground ++ "\n        ",
      "\n      end tell\n\n      -- Set as default profile\n      set default settings to settings set \""
      ++ escapedName name ++ "\"\n\n      -- Also set startup settings (for new windows)\n      set startup settings to settings set \""
      ++ escapedName name ++ "\"\n    end tell\n  ", ?_⟩
    apply strExt
    simp [setTerminalDefaultScript, String.data_append, List.append_assoc]

/-- Witness for C10: two concrete color sets agreeing on background,
foreground and cursor but differing on selection produce identical
scripts, which contain the three rendered commands. -/
theorem terminal_scripts_three_colors_witness :
    ((solidColors "#111111").background =
      ({ solidColors "#111111" with selection := "#222222" } : ThemeColors).background) ∧
    ((solidColors "#111111").foreground =
      ({ solidColors "#111111" with selection := "#222222" } : ThemeColors).foreground) ∧
    ((solidColors "#111111").cursor =
      ({ solidColors "#111111" with selection := "#222222" } : ThemeColors).cursor) ∧
    (terminalCreateProfileScript "T" (solidColors "#111111") =
      terminalCreateProfileScript "T" { solidColors "#111111" with selection := "#222222" } ∧
    setTerminalDefaultScript "T" (solidColors "#111111") =
      setTerminalDefaultScript "T" { solidColors "#111111" with selection := "#222222" } ∧
    (∃ x y : String, terminalCreateProfileScript "T" (solidColors "#111111") =
      x ++ ("set background color of targetSettings to "
        ++ hexToRGB (solidColors "#111111").background) ++ y) ∧
    (∃ x y : String, terminalCreateProfileScript "T" (solidColors "#111111") =
      x ++ ("set normal text color of targetSettings to "
        ++ hexToRGB (solidColors "#111111").foreground) ++ y) ∧
    (∃ x y : String, terminalCreateProfileScript "T" (solidColors "#111111") =
      x ++ ("set cursor color of targetSettings to "
        ++ hexToRGB (solidColors "#111111").cursor) ++ y) ∧
    (∃ x y : String, setTerminalDefaultScript "T" (solidColors "#111111") =
      x ++ ("set background color to " ++ hexToRGB (solidColors "#111111").background) ++ y) ∧
    (∃ x y : String, setTerminalDefaultScript "T" (solidColors "#111111") =
      x ++ ("set normal text color to " ++ hexToRGB (solidColors "#111111").foreground) ++ y) ∧
    (∃ x y : String, setTerminalDefaultScript "T" (solidColors "#111111") =
      x ++ ("set cursor color to " ++ hexToRGB (solidColors "#111111").cursor) ++ y)) :=
  ⟨rfl, rfl, rfl,
    terminal_scripts_three_colors "T" (solidColors "#111111")
      { solidColors "#111111" with selection := "#222222" } rfl rfl rfl⟩

/-! ## C6: Windows Terminal scheme-list invariant -/

theorem wtApply_name_nodup {st : WTSettings} (hn : (st.schemes.map WTScheme.name).Nodup)
    (n : String) (c : ThemeColors) :
    (((wtApply st n c).schemes).map WTScheme.name).Nodup := by
  rw [wtApply]
  simp only [List.map_append, List.map_cons, List.map_nil]
  apply List.Nodup.append
  · exact List.Nodup.sublist ((List.filter_sublist _).map _) hn
  · exact List.nodup_singleton _
  · intro x hx hy
    simp only [List.mem_singleton] at hy
    subst hy
    simp only [List.mem_map] at hx
    obtain ⟨s, hs, hname⟩ := hx
    rw [List.mem_filter] at hs
    have := hs.2
    simp only [bne_iff_ne, ne_eq] at this
    exact this hname

theorem wt_foldl_nodup (installs : List (String × ThemeColors)) :
    ∀ st : WTSettings, (st.schemes.map WTScheme.name).Nodup →
      (((installs.foldl (fun s p => wtApply s p.1 p.2) st).schemes).map WTScheme.name).Nodup := by
  induction installs with
  | nil => intro st hn; exact hn
  | cons p rest ih =>
    intro st hn
    exact ih (wtApply st p.1 p.2) (wtApply_name_nodup hn p.1 p.2)

theorem wt_foldl_default (installs : List (String × ThemeColors)) :
    ∀ (st : WTSettings) (p : String × ThemeColors), installs.getLast? = some p →
      (installs.foldl (fun s q => wtApply s q.1 q.2) st).defaultColorScheme = some p.1 := by
  induction installs with
  | nil => intro st p hp; cases hp
  | cons q rest ih =>
    intro st p hp
    cases rest with
    | nil =>
      simp only [List.getLast?_singleton, Option.some.injEq] at hp
      subst hp
      rfl
    | cons r rs =>
      rw [List.getLast?_cons_cons] at hp
      exact ih (wtApply st q.1 q.2) p hp

/-- C6 (amended): starting from a settings document whose scheme names are
pairwise distinct, any sequence of `installToWindowsTerminal` settings
mutations keeps the names pairwise distinct (an existing scheme with the
installed name is removed before the new one is appended), and after a
nonempty sequence `profiles.defaults.colorScheme` is the most recently
installed theme's name.  (Without the distinctness assumption the claim
fails: pre-existing duplicates under a different name survive, see the
counterexample.) -/
theorem wt_install_nodup_and_default (st : WTSettings)
    (hn : (st.schemes.map WTScheme.name).Nodup)
    (installs : List (String × ThemeColors)) (p : String × ThemeColors)
    (hp : installs.getLast? = some p) :
    (((installs.foldl (fun s q => wtApply s q.1 q.2) st).schemes).map WTScheme.name).Nodup ∧
    (installs.foldl (fun s q => wtApply s q.1 q.2) st).defaultColorScheme = some p.1 :=
  ⟨wt_foldl_nodup installs st hn, wt_foldl_default installs st p hp⟩

/-- C6 counterexample: a starting document that already holds two schemes
with the same name "A" still holds them after installing a theme named
"B", so the resulting schemes array does contain two entries with the same
name. -/
theorem wt_install_duplicate_counterexample :
    ¬ (((wtApply ⟨[mkWTScheme "A" (solidColors "#000000"),
        mkWTScheme "A" (solidColors "#000000")], none⟩ "B"
        (solidColors "#000000")).schemes.map WTScheme.name).Nodup) := by
  intro h
  rw [wtApply] at h
  simp [mkWTScheme, solidColors, solidAnsi] at h

/-- Witness for C6: two successive installs ("A" then "B") on an empty
scheme list leave distinct names and set the default scheme to "B". -/
theorem wt_install_nodup_and_default_witness :
    ((([] : List WTScheme).map WTScheme.name).Nodup) ∧
    ([("A", solidColors "#000000"), ("B", solidColors "#111111")].getLast? =
      some ("B", solidColors "#111111")) ∧
    (((([("A", solidColors "#000000"), ("B", solidColors "#111111")].foldl
        (fun s q => wtApply s q.1 q.2) ⟨[], none⟩).schemes).map WTScheme.name).Nodup ∧
      ([("A", solidColors "#000000"), ("B", solidColors "#111111")].foldl
        (fun s q => wtApply s q.1 q.2) ⟨[], none⟩).defaultColorScheme =
        some ("B", solidColors "#111111").1) :=
  ⟨by simp, rfl,
    wt_install_nodup_and_default ⟨[], none⟩ (by simp)
      [("A", solidColors "#000000"), ("B", solidColors "#111111")]
      ("B", solidColors "#111111") rfl⟩

/-! ## C8: end-to-end Alacritty example -/

/-- C8: installing a theme with background `#1e1e2e` and foreground
`#cdd6f4` to Alacritty on Linux with `XDG_CONFIG_HOME` unset writes
`~/.config/alacritty/alacritty.toml` (home dir `/home/user`), whose
content starts with the two-line comment header naming the theme and
contains `background = "#1e1e2e"` directly under `[colors.primary]` with
`foreground = "#cdd6f4"` on the next line. -/
theorem alacritty_linux_end_to_end :
    ((installToAlacritty ⟨[("background", "#1e1e2e"), ("foreground", "#cdd6f4")], some "Mocha"⟩
        ⟨.linux, none, none, "/home/user", none, true⟩ "e").2.map FileWrite.path =
      some "/home/user/.config/alacritty/alacritty.toml") ∧
    ((installToAlacritty ⟨[("background", "#1e1e2e"), ("foreground", "#cdd6f4")], some "Mocha"⟩
        ⟨.linux, none, none, "/home/user", none, true⟩ "e").2.map
        (fun fw => ("# ShellShade Theme: Mocha\n# Generated by ShellShade\n\n[colors.primary]\nbackground = \"#1e1e2e\"\nforeground = \"#cdd6f4\"\n").data.isPrefixOf fw.content.data) =
      some true) := by
  constructor
  · rfl
  · decide

/-! ## C7: repeated Alacritty installs -/

/-- `lit` occurs as a contiguous substring. -/
def occursIn (lit : Str) : Str → Bool
  | [] => false
  | c :: cs => lit.isPrefixOf (c :: cs) || occursIn lit cs

/-- C7 counterexample: the regex `\[colors\.primary\][\s\S]*?(?=\[|$)` is
not anchored to section headers, so a prior config whose non-color line
embeds the text `[colors.primary]` inside a string value loses everything
from that point on: the following non-color line `font = 12` is not
preserved. -/
theorem alacritty_preservation_counterexample :
    occursIn "font = 12".data
      "k = \"[colors.primary] x\"\nfont = 12".data = true ∧
    occursIn "font = 12".data
      (alacrittyMergedContent (some "k = \"[colors.primary] x\"\nfont = 12") "T"
        (solidColors "#000000")).data = false := by
  constructor
  · decide
  · decide

theorem stripSecF_mono_aux : ∀ (n : Nat) (l0 : Char) (lr s : Str), s.length ≤ n →
    ∀ f1 f2, s.length ≤ f1 → s.length ≤ f2 →
      stripSecF f1 (l0 :: lr) s = stripSecF f2 (l0 :: lr) s := by
  intro n
  induction n with
  | zero =>
    intro l0 lr s hs f1 f2 h1 h2
    have : s = [] := List.length_eq_zero.mp (Nat.le_zero.mp hs)
    subst this
    cases f1 <;> cases f2 <;> rfl
  | succ n ih =>
    intro l0 lr s hs f1 f2 h1 h2
    cases s with
    | nil => cases f1 <;> cases f2 <;> rfl
    | cons c cs =>
      cases f1 with
      | zero => simp at h1
      | succ f1' =>
        cases f2 with
        | zero => simp at h2
        | succ f2' =>
          simp only [List.length_cons] at hs h1 h2
          have hcs : cs.length ≤ n := by omega
          have hc1 : cs.length ≤ f1' := by omega
          have hc2 : cs.length ≤ f2' := by omega
          simp only [stripSecF]
          split_ifs with hp
          · have hlen : (((c :: cs).drop (l0 :: lr).length).dropWhile
                (fun x => !(x == '['))).length ≤ cs.length := by
              have hd : ((c :: cs).drop (l0 :: lr).length).length ≤ cs.length := by
                rw [List.length_drop]
                simp only [List.length_cons]
                omega
              exact Nat.le_trans (dropWhile_length_le _ _) hd
            exact ih l0 lr _ (Nat.le_trans hlen hcs) f1' f2'
              (Nat.le_trans hlen hc1) (Nat.le_trans hlen hc2)
          · rw [ih l0 lr cs hcs f1' f2' hc1 hc2]

theorem stripSecF_mono {l0 : Char} {lr s : Str} {f1 f2 : Nat}
    (h1 : s.length ≤ f1) (h2 : s.length ≤ f2) :
    stripSecF f1 (l0 :: lr) s = stripSecF f2 (l0 :: lr) s :=
  stripSecF_mono_aux s.length l0 lr s (Nat.le_refl _) f1 f2 h1 h2

theorem stripSec_nil (lit : Str) : stripSec lit [] = [] := rfl

theorem stripSec_cons_no (l0 : Char) (lr : Str) (c : Char) (cs : Str)
    (h : (l0 :: lr).isPrefixOf (c :: cs) = false) :
    stripSec (l0 :: lr) (c :: cs) = c :: stripSec (l0 :: lr) cs := by
  show stripSecF (cs.length + 1) (l0 :: lr) (c :: cs) = _
  simp only [stripSecF]
  rw [if_neg (by simp [h])]
  rfl

theorem stripSec_cons_match (l0 : Char) (lr : Str) (s : Str)
    (h : (l0 :: lr).isPrefixOf s = true) :
    stripSec (l0 :: lr) s =
      stripSec (l0 :: lr) ((s.drop (l0 :: lr).length).dropWhile (fun x => !(x == '['))) := by
  cases s with
  | nil => simp [List.isPrefixOf] at h
  | cons c cs =>
    show stripSecF (cs.length + 1) (l0 :: lr) (c :: cs) = _
    simp only [stripSecF]
    rw [if_pos h]
    apply stripSecF_mono
    · have hd : (((c :: cs).drop (l0 :: lr).length).dropWhile
          (fun x => !(x == '['))).length ≤ cs.length := by
        have : ((c :: cs).drop (l0 :: lr).length).length ≤ cs.length := by
          rw [List.length_drop]
          simp only [List.length_cons]
          omega
        exact Nat.le_trans (dropWhile_length_le _ _) this
      exact hd
    · exact Nat.le_refl _

theorem stripSec_skip (l0 : Char) (lr : Str) : ∀ (a b : Str),
    (∀ i, i < a.length → (l0 :: lr).isPrefixOf (List.drop i (a ++ b)) = false) →
    stripSec (l0 :: lr) (a ++ b) = a ++ stripSec (l0 :: lr) b := by
  intro a
  induction a with
  | nil => intro b _; simp
  | cons x a' ih =>
    intro b h
    have h0 : (l0 :: lr).isPrefixOf (x :: (a' ++ b)) = false := by
      have := h 0 (by simp)
      simpa using this
    rw [List.cons_append, stripSec_cons_no l0 lr x (a' ++ b) h0]
    rw [ih b (fun i hi => by
      have := h (i + 1) (by simp only [List.length_cons]; omega)
      simpa [List.drop_succ_cons] using this)]
    rfl

theorem stripSec_id (l0 : Char) (lr : Str) (s : Str)
    (h : ∀ i, i < s.length → (l0 :: lr).isPrefixOf (List.drop i s) = false) :
    stripSec (l0 :: lr) s = s := by
  have := stripSec_skip l0 lr s [] (fun i hi => by
    have := h i hi
    simpa using this)
  simpa [stripSec_nil] using this

theorem pref_false_of_ne_head (l0 : Char) (lr t : Str)
    (h : ∀ y, t.head? = some y → y ≠ l0) : (l0 :: lr).isPrefixOf t = false := by
  cases t with
  | nil => rfl
  | cons y ys =>
    have hy : y ≠ l0 := h y rfl
    simp only [List.isPrefixOf, Bool.and_eq_false_iff]
    left
    simp [Ne.symm hy]

theorem noOcc_notMem (l0 : Char) (lr : Str) : ∀ (a b : Str), l0 ∉ a →
    ∀ i, i < a.length → (l0 :: lr).isPrefixOf (List.drop i (a ++ b)) = false := by
  intro a
  induction a with
  | nil => intro b _ i hi; simp at hi
  | cons x a' ih =>
    intro b hmem i hi
    simp only [List.mem_cons, not_or] at hmem
    cases i with
    | zero =>
      apply pref_false_of_ne_head
      intro y hy
      simp only [List.cons_append, List.drop_zero, List.head?_cons,
        Option.some.injEq] at hy
      subst hy
      exact fun e => hmem.1 e.symm
    | succ j =>
      rw [List.cons_append, List.drop_succ_cons]
      exact ih b hmem.2 j (by simp only [List.length_cons] at hi; omega)

theorem noOcc_append (lit : Str) (a1 a2 b : Str)
    (h1 : ∀ i, i < a1.length → lit.isPrefixOf (List.drop i (a1 ++ (a2 ++ b))) = false)
    (h2 : ∀ i, i < a2.length → lit.isPrefixOf (List.drop i (a2 ++ b)) = false) :
    ∀ i, i < (a1 ++ a2).length → lit.isPrefixOf (List.drop i ((a1 ++ a2) ++ b)) = false := by
  intro i hi
  rw [List.append_assoc]
  rcases Nat.lt_or_ge i a1.length with hlt | hge
  · exact h1 i hlt
  · obtain ⟨j, rfl⟩ : ∃ j, i = a1.length + j := ⟨i - a1.length, by omega⟩
    rw [List.drop_append]
    rw [List.length_append] at hi
    exact h2 j (by omega)

theorem occursIn_false_drop (l0 : Char) (lr : Str) : ∀ (a : Str),
    occursIn (l0 :: lr) a = false → ∀ i, (l0 :: lr).isPrefixOf (List.drop i a) = false := by
  intro a
  induction a with
  | nil => intro _ i; rw [List.drop_nil]; rfl
  | cons c cs ih =>
    intro h i
    rw [occursIn, Bool.or_eq_false_iff] at h
    cases i with
    | zero => exact h.1
    | succ j =>
      rw [List.drop_succ_cons]
      exact ih h.2 j

theorem isPrefixOf_append_cases : ∀ (x lit b : Str), lit.isPrefixOf (x ++ b) = true →
    lit.isPrefixOf x = true ∨
      (x.isPrefixOf lit = true ∧ (lit.drop x.length).isPrefixOf b = true) := by
  intro x
  induction x with
  | nil =>
    intro lit b h
    right
    exact ⟨by cases lit <;> rfl, by simpa using h⟩
  | cons y xs ih =>
    intro lit b h
    cases lit with
    | nil => left; rfl
    | cons l ls =>
      rw [List.cons_append] at h
      simp only [List.isPrefixOf, Bool.and_eq_true] at h
      have hly : l = y := by simpa using h.1
      subst hly
      rcases ih ls b h.2 with h1 | ⟨h2, h3⟩
      · left
        simp only [List.isPrefixOf, Bool.and_eq_true]
        exact ⟨by simp, h1⟩
      · right
        constructor
        · simp only [List.isPrefixOf, Bool.and_eq_true]
          exact ⟨by simp, h2⟩
        · simpa using h3

theorem isPrefixOf_self_append (l t : Str) : l.isPrefixOf (l ++ t) = true := by
  induction l with
  | nil => cases t <;> rfl
  | cons c cs ih => simp [List.isPrefixOf, ih]

theorem eq_of_isPrefixOf_of_le {x lit : Str} (h : x.isPrefixOf lit = true)
    (hl : lit.length ≤ x.length) : x = lit := by
  have hp : x <+: lit := by
    rwa [← List.isPrefixOf_iff_prefix]
  exact List.IsPrefix.eq_of_length hp (Nat.le_antisymm hp.length_le hl)

theorem noOcc_boundary (l0 : Char) (lr : Str) (a b' : Str)
    (hocc : occursIn (l0 :: lr) a = false) (hnl : '\n' ∉ (l0 :: lr)) :
    ∀ i, i < a.length → (l0 :: lr).isPrefixOf (List.drop i (a ++ '\n' :: b')) = false := by
  intro i hi
  cases hp : (l0 :: lr).isPrefixOf (List.drop i (a ++ '\n' :: b')) with
  | false => rfl
  | true =>
    exfalso
    rw [List.drop_append_of_le_length (Nat.le_of_lt hi)] at hp
    rcases isPrefixOf_append_cases (a.drop i) (l0 :: lr) ('\n' :: b') hp with h1 | ⟨h2, h3⟩
    · rw [occursIn_false_drop l0 lr a hocc i] at h1
      exact Bool.false_ne_true h1
    · rcases Nat.lt_or_ge (a.drop i).length (l0 :: lr).length with hlen | hlen
      · have hne : (l0 :: lr).drop (a.drop i).length ≠ [] := by
          intro he
          have := congrArg List.length he
          rw [List.length_drop] at this
          simp only [List.length_nil] at this
          omega
        cases hrem : (l0 :: lr).drop (a.drop i).length with
        | nil => exact hne hrem
        | cons r0 rs =>
          rw [hrem] at h3
          simp only [List.isPrefixOf, Bool.and_eq_true, beq_iff_eq] at h3
          have hmem : r0 ∈ (l0 :: lr) := by
            have : r0 ∈ (l0 :: lr).drop (a.drop i).length := by
              rw [hrem]
              exact List.mem_cons_self _ _
            exact List.mem_of_mem_drop this
          rw [h3.1] at hmem
          exact hnl hmem
      · have heq := eq_of_isPrefixOf_of_le h2 hlen
        have h4 := occursIn_false_drop l0 lr a hocc i
        rw [heq] at h4
        have h5 : (l0 :: lr).isPrefixOf (l0 :: lr) = true := by
          have := isPrefixOf_self_append (l0 :: lr) []
          rwa [List.append_nil] at this
        rw [h4] at h5
        exact Bool.false_ne_true h5

theorem noOcc_concrete (l0 : Char) (lr : Str) (lj b : Str)
    (h0 : (l0 :: lr).isPrefixOf (lj ++ b) = false) (hlj : l0 ∉ lj.tail) :
    ∀ i, i < lj.length → (l0 :: lr).isPrefixOf (List.drop i (lj ++ b)) = false := by
  intro i hi
  cases lj with
  | nil => simp at hi
  | cons x ljt =>
    cases i with
    | zero => exact h0
    | succ j =>
      rw [List.cons_append, List.drop_succ_cons]
      exact noOcc_notMem l0 lr ljt b hlj j (by simp only [List.length_cons] at hi; omega)

theorem dropWhile_no_bracket : ∀ (body rest : Str), '[' ∉ body → rest.head? = some '[' →
    (body ++ rest).dropWhile (fun x => !(x == '[')) = rest := by
  intro body
  induction body with
  | nil =>
    intro rest _ hr
    cases rest with
    | nil => cases hr
    | cons r rs =>
      simp only [List.head?_cons, Option.some.injEq] at hr
      subst hr
      simp [List.dropWhile_cons]
  | cons c cb ih =>
    intro rest hb hr
    simp only [List.mem_cons, not_or] at hb
    have hc : c ≠ '[' := fun e => hb.1 e.symm
    rw [List.cons_append, List.dropWhile_cons, if_pos (by simp [hc])]
    exact ih rest hb.2 hr

theorem dropWhile_all_no_bracket : ∀ (body : Str), '[' ∉ body →
    body.dropWhile (fun x => !(x == '[')) = [] := by
  intro body
  induction body with
  | nil => intro _; rfl
  | cons c cb ih =>
    intro hb
    simp only [List.mem_cons, not_or] at hb
    have hc : c ≠ '[' := fun e => hb.1 e.symm
    rw [List.dropWhile_cons, if_pos (by simp [hc])]
    exact ih hb.2

theorem stripHdrF_mono_aux : ∀ (n : Nat) (s : Str), s.length ≤ n →
    ∀ f1 f2, s.length ≤ f1 → s.length ≤ f2 → stripHdrF f1 s = stripHdrF f2 s := by
  intro n
  induction n with
  | zero =>
    intro s hs f1 f2 h1 h2
    have : s = [] := List.length_eq_zero.mp (Nat.le_zero.mp hs)
    subst this
    cases f1 <;> cases f2 <;> rfl
  | succ n ih =>
    intro s hs f1 f2 h1 h2
    cases s with
    | nil => cases f1 <;> cases f2 <;> rfl
    | cons c cs =>
      cases f1 with
      | zero => simp at h1
      | succ f1' =>
        cases f2 with
        | zero => simp at h2
        | succ f2' =>
          simp only [List.length_cons] at hs h1 h2
          have hcs : cs.length ≤ n := by omega
          have hc1 : cs.length ≤ f1' := by omega
          have hc2 : cs.length ≤ f2' := by omega
          simp only [stripHdrF]
          split_ifs with hp
          · cases hd : ((c :: cs).drop hdrLit1.length).dropWhile (fun x => !(x == '\n')) with
            | nil =>
              simp only [hd]
              rw [ih cs hcs f1' f2' hc1 hc2]
            | cons hd0 r2 =>
              have hr2 : r2.length ≤ cs.length := by
                have := dropWhile_length_le (fun x => !(x == '\n')) ((c :: cs).drop hdrLit1.length)
                rw [hd] at this
                simp only [List.length_cons] at this
                rw [List.length_drop] at this
                simp only [List.length_cons] at this
                omega
              simp only [hd]
              split_ifs with h2'
              · have htar : ((r2.drop hdrLit2.length).dropWhile (fun x => x == '\n')).length ≤
                    cs.length := by
                  have := dropWhile_length_le (fun x => x == '\n') (r2.drop hdrLit2.length)
                  rw [List.length_drop] at this
                  omega
                exact ih _ (Nat.le_trans htar hcs) f1' f2'
                  (Nat.le_trans htar hc1) (Nat.le_trans htar hc2)
              · rw [ih cs hcs f1' f2' hc1 hc2]
          · rw [ih cs hcs f1' f2' hc1 hc2]

theorem stripHdrF_mono {s : Str} {f1 f2 : Nat} (h1 : s.length ≤ f1) (h2 : s.length ≤ f2) :
    stripHdrF f1 s = stripHdrF f2 s :=
  stripHdrF_mono_aux s.length s (Nat.le_refl _) f1 f2 h1 h2

theorem stripHdr_nil : stripHdr [] = [] := rfl

theorem stripHdr_cons_no (c : Char) (cs : Str) (h : hdrLit1.isPrefixOf (c :: cs) = false) :
    stripHdr (c :: cs) = c :: stripHdr cs := by
  show stripHdrF (cs.length + 1) (c :: cs) = _
  simp only [stripHdrF]
  rw [if_neg (by simp [h])]
  rfl

theorem stripHdr_match (s r2 : Str) (h1 : hdrLit1.isPrefixOf s = true)
    (hd0 : Char)
    (hd : (s.drop hdrLit1.length).dropWhile (fun x => !(x == '\n')) = hd0 :: r2)
    (h2 : hdrLit2.isPrefixOf r2 = true) :
    stripHdr s = stripHdr ((r2.drop hdrLit2.length).dropWhile (fun x => x == '\n')) := by
  cases s with
  | nil =>
    rw [show hdrLit1.isPrefixOf [] = false from rfl] at h1
    cases h1
  | cons c cs =>
    show stripHdrF (cs.length + 1) (c :: cs) = _
    simp only [stripHdrF]
    rw [if_pos h1]
    have hr2 : r2.length ≤ cs.length := by
      have := dropWhile_length_le (fun x => !(x == '\n')) ((c :: cs).drop hdrLit1.length)
      rw [hd] at this
      simp only [List.length_cons] at this
      rw [List.length_drop] at this
      simp only [List.length_cons] at this
      omega
    simp only [hd]
    rw [if_pos h2]
    apply stripHdrF_mono
    · have := dropWhile_length_le (fun x => x == '\n') (r2.drop hdrLit2.length)
      rw [List.length_drop] at this
      omega
    · exact Nat.le_refl _

theorem stripHdr_skip : ∀ (a b : Str),
    (∀ i, i < a.length → hdrLit1.isPrefixOf (List.drop i (a ++ b)) = false) →
    stripHdr (a ++ b) = a ++ stripHdr b := by
  intro a
  induction a with
  | nil => intro b _; simp
  | cons x a' ih =>
    intro b h
    have h0 : hdrLit1.isPrefixOf (x :: (a' ++ b)) = false := by
      have := h 0 (by simp)
      simpa using this
    rw [List.cons_append, stripHdr_cons_no x (a' ++ b) h0]
    rw [ih b (fun i hi => by
      have := h (i + 1) (by simp only [List.length_cons]; omega)
      simpa [List.drop_succ_cons] using this)]
    rfl

theorem stripHdr_id (s : Str)
    (h : ∀ i, i < s.length → hdrLit1.isPrefixOf (List.drop i s) = false) :
    stripHdr s = s := by
  have := stripHdr_skip s [] (fun i hi => by
    have := h i hi
    simpa using this)
  simpa [stripHdr_nil] using this

/-- No occurrence of the literal anywhere in `s`. -/
def NoOccAll (lit s : Str) : Prop := ∀ i, lit.isPrefixOf (List.drop i s) = false

theorem noOccAll_nil (l0 : Char) (lr : Str) : NoOccAll (l0 :: lr) [] := by
  intro i
  rw [List.drop_nil]
  rfl

theorem noOccAll_append (l0 : Char) (lr a x : Str)
    (ha : ∀ i, i < a.length → (l0 :: lr).isPrefixOf (List.drop i (a ++ x)) = false)
    (hx : NoOccAll (l0 :: lr) x) : NoOccAll (l0 :: lr) (a ++ x) := by
  intro i
  rcases Nat.lt_or_ge i a.length with hlt | hge
  · exact ha i hlt
  · obtain ⟨j, rfl⟩ : ∃ j, i = a.length + j := ⟨i - a.length, by omega⟩
    rw [List.drop_append]
    exact hx j

theorem noOccAll_of_notMem (l0 : Char) (lr a : Str) (hmem : l0 ∉ a) :
    NoOccAll (l0 :: lr) a := by
  intro i
  apply pref_false_of_ne_head
  intro y hy
  have hmem' : y ∈ a := by
    have h1 : y ∈ List.drop i a := by
      cases hdrop : List.drop i a with
      | nil =>
        rw [hdrop] at hy
        exact absurd hy (by simp)
      | cons z zs =>
        rw [hdrop] at hy
        simp only [List.head?_cons, Option.some.injEq] at hy
        rw [← hy]
        exact List.mem_cons_self z zs
    exact List.mem_of_mem_drop h1
  exact fun e => hmem (e ▸ hmem')

theorem noOccAll_nb (l0 : Char) (lr a x : Str) (hmem : l0 ∉ a)
    (hx : NoOccAll (l0 :: lr) x) : NoOccAll (l0 :: lr) (a ++ x) :=
  noOccAll_append l0 lr a x (noOcc_notMem l0 lr a x hmem) hx

theorem noOccAll_lit_block (l0 : Char) (lr : Str) (c0 : Char) (r x : Str)
    (h0 : (l0 :: lr).isPrefixOf ((c0 :: r) ++ x) = false)
    (hr : l0 ∉ r) (hx : NoOccAll (l0 :: lr) x) : NoOccAll (l0 :: lr) ((c0 :: r) ++ x) := by
  apply noOccAll_append l0 lr (c0 :: r) x _ hx
  intro i hi
  cases i with
  | zero => exact h0
  | succ j =>
    rw [List.cons_append, List.drop_succ_cons]
    exact noOcc_notMem l0 lr r x hr j (by simp only [List.length_cons] at hi; omega)

/-- Characters that may appear in interpolated names and colors without
disturbing the strip pipeline: no newline, no opening bracket. -/
def cleanText (s : Str) : Bool := s.all (fun c => !(c == '\n') && !(c == '['))

theorem cleanText_not_mem {s : Str} (h : cleanText s = true) : '\n' ∉ s ∧ '[' ∉ s := by
  rw [cleanText, List.all_eq_true] at h
  constructor
  · intro hmem
    have := h _ hmem
    simp at this
  · intro hmem
    have := h _ hmem
    simp at this

/-- All 22 interpolated strings of a theme's generated TOML are clean. -/
def cleanColors (c : ThemeColors) : Bool :=
  cleanText c.background.data && (cleanText c.foreground.data &&
  (cleanText c.cursor.data && (cleanText c.cursorText.data &&
  (cleanText c.selection.data && (cleanText c.selectionText.data &&
  (cleanText c.ansi.black.data && (cleanText c.ansi.red.data &&
  (cleanText c.ansi.green.data && (cleanText c.ansi.yellow.data &&
  (cleanText c.ansi.blue.data && (cleanText c.ansi.magenta.data &&
  (cleanText c.ansi.cyan.data && (cleanText c.ansi.white.data &&
  (cleanText c.ansi.brightBlack.data && (cleanText c.ansi.brightRed.data &&
  (cleanText c.ansi.brightGreen.data && (cleanText c.ansi.brightYellow.data &&
  (cleanText c.ansi.brightBlue.data && (cleanText c.ansi.brightMagenta.data &&
  (cleanText c.ansi.brightCyan.data && cleanText c.ansi.brightWhite.data))))))))))))))))))))

theorem stripSec_chunk (l0 : Char) (lr : Str) (pre body rest : Str)
    (hpre : ∀ i, i < pre.length →
      (l0 :: lr).isPrefixOf (List.drop i (pre ++ ((l0 :: lr) ++ (body ++ rest)))) = false)
    (hbody : '[' ∉ body) (hrest : rest.head? = some '[') :
    stripSec (l0 :: lr) (pre ++ ((l0 :: lr) ++ (body ++ rest))) =
      pre ++ stripSec (l0 :: lr) rest := by
  rw [stripSec_skip l0 lr pre _ hpre]
  rw [stripSec_cons_match l0 lr _ (isPrefixOf_self_append _ _)]
  rw [List.drop_left]
  rw [dropWhile_no_bracket body rest hbody hrest]

theorem stripSec_chunk_last (l0 : Char) (lr : Str) (pre body : Str)
    (hpre : ∀ i, i < pre.length →
      (l0 :: lr).isPrefixOf (List.drop i (pre ++ ((l0 :: lr) ++ body))) = false)
    (hbody : '[' ∉ body) :
    stripSec (l0 :: lr) (pre ++ ((l0 :: lr) ++ body)) = pre := by
  rw [stripSec_skip l0 lr pre _ hpre]
  rw [stripSec_cons_match l0 lr _ (isPrefixOf_self_append _ _)]
  rw [List.drop_left]
  rw [dropWhile_all_no_bracket body hbody]
  rw [stripSec_nil, List.append_nil]

theorem notMemAppend {a : Char} {l1 l2 : Str} (h1 : a ∉ l1) (h2 : a ∉ l2) :
    a ∉ l1 ++ l2 := by
  simp only [List.mem_append, not_or]
  exact ⟨h1, h2⟩

/-! Regions of the generated TOML block, used to trace the strip pipeline. -/

def tomlPre (n : String) : Str :=
  "# ShellShade Theme: ".data ++ n.data ++ "\n# Generated by ShellShade\n\n".data

def tomlB1 (c : ThemeColors) : Str :=
  "\nbackground = \"".data ++ c.background.data ++ "\"\nforeground = \"".data
    ++ c.foreground.data ++ "\"\n\n".data

def tomlB2 (c : ThemeColors) : Str :=
  "\ntext = \"".data ++ c.cursorText.data ++ "\"\ncursor = \"".data
    ++ c.cursor.data ++ "\"\n\n".data

def tomlB3 (c : ThemeColors) : Str :=
  "\ntext = \"".data ++ c.selectionText.data ++ "\"\nbackground = \"".data
    ++ c.selection.data ++ "\"\n\n".data

def tomlB4 (c : ThemeColors) : Str :=
  "\nblack = \"".data ++ c.ansi.black.data ++ "\"\nred = \"".data ++ c.ansi.red.data
    ++ "\"\ngreen = \"".data ++ c.ansi.green.data ++ "\"\nyellow = \"".data
    ++ c.ansi.yellow.data ++ "\"\nblue = \"".data ++ c.ansi.blue.data
    ++ "\"\nmagenta = \"".data ++ c.ansi.magenta.data ++ "\"\ncyan = \"".data
    ++ c.ansi.cyan.data ++ "\"\nwhite = \"".data ++ c.ansi.white.data ++ "\"\n\n".data

def tomlB5 (c : ThemeColors) : Str :=
  "\nblack = \"".data ++ c.ansi.brightBlack.data ++ "\"\nred = \"".data
    ++ c.ansi.brightRed.data ++ "\"\ngreen = \"".data ++ c.ansi.brightGreen.data
    ++ "\"\nyellow = \"".data ++ c.ansi.brightYellow.data ++ "\"\nblue = \"".data
    ++ c.ansi.brightBlue.data ++ "\"\nmagenta = \"".data ++ c.ansi.brightMagenta.data
    ++ "\"\ncyan = \"".data ++ c.ansi.brightCyan.data ++ "\"\nwhite = \"".data
    ++ c.ansi.brightWhite.data ++ "\"\n".data

theorem alacrittyToml_decomp (n : String) (c : ThemeColors) :
    (alacrittyToml n c).data =
      tomlPre n ++ ("[colors.primary]".data ++ (tomlB1 c ++ ("[colors.cursor]".data ++
        (tomlB2 c ++ ("[colors.selection]".data ++ (tomlB3 c ++ ("[colors.normal]".data ++
          (tomlB4 c ++ ("[colors.bright]".data ++ tomlB5 c))))))))) := by
  simp [alacrittyToml, tomlPre, tomlB1, tomlB2, tomlB3, tomlB4, tomlB5,
    String.data_append, List.append_assoc]

theorem litPrimary_eq : ("[colors.primary]").data = '[' :: ("colors.primary]").data := rfl

theorem litCursor_eq : ("[colors.cursor]").data = '[' :: ("colors.cursor]").data := rfl

theorem litSelection_eq : ("[colors.selection]").data = '[' :: ("colors.selection]").data := rfl

theorem litNormal_eq : ("[colors.normal]").data = '[' :: ("colors.normal]").data := rfl

theorem litBright_eq : ("[colors.bright]").data = '[' :: ("colors.bright]").data := rfl

theorem tomlB1_nb (c : ThemeColors) (hc : cleanColors c = true) : '[' ∉ tomlB1 c := by
  simp only [cleanColors, Bool.and_eq_true] at hc
  obtain ⟨q1, q2, _⟩ := hc
  exact (notMemAppend (notMemAppend (notMemAppend (notMemAppend (by decide) (cleanText_not_mem q1).2) (by decide)) (cleanText_not_mem q2).2) (by decide))

theorem tomlB2_nb (c : ThemeColors) (hc : cleanColors c = true) : '[' ∉ tomlB2 c := by
  simp only [cleanColors, Bool.and_eq_true] at hc
  obtain ⟨_, _, q3, q4, _⟩ := hc
  exact (notMemAppend (notMemAppend (notMemAppend (notMemAppend (by decide) (cleanText_not_mem q4).2) (by decide)) (cleanText_not_mem q3).2) (by decide))

theorem tomlB3_nb (c : ThemeColors) (hc : cleanColors c = true) : '[' ∉ tomlB3 c := by
  simp only [cleanColors, Bool.and_eq_true] at hc
  obtain ⟨_, _, _, _, q5, q6, _⟩ := hc
  exact (notMemAppend (notMemAppend (notMemAppend (notMemAppend (by decide) (cleanText_not_mem q6).2) (by decide)) (cleanText_not_mem q5).2) (by decide))

theorem tomlB4_nb (c : ThemeColors) (hc : cleanColors c = true) : '[' ∉ tomlB4 c := by
  simp only [cleanColors, Bool.and_eq_true] at hc
  obtain ⟨_, _, _, _, _, _, q7, q8, q9, q10, q11, q12, q13, q14, _⟩ := hc
  exact (notMemAppend (notMemAppend (notMemAppend (notMemAppend (notMemAppend (notMemAppend (notMemAppend (notMemAppend (notMemAppend (notMemAppend (notMemAppend (notMemAppend (notMemAppend (notMemAppend (notMemAppend (notMemAppend (by decide) (cleanText_not_mem q7).2) (by decide)) (cleanText_not_mem q8).2) (by decide)) (cleanText_not_mem q9).2) (by decide)) (cleanText_not_mem q10).2) (by decide)) (cleanText_not_mem q11).2) (by decide)) (cleanText_not_mem q12).2) (by decide)) (cleanText_not_mem q13).2) (by decide)) (cleanText_not_mem q14).2) (by decide))

theorem tomlB5_nb (c : ThemeColors) (hc : cleanColors c = true) : '[' ∉ tomlB5 c := by
  simp only [cleanColors, Bool.and_eq_true] at hc
  obtain ⟨_, _, _, _, _, _, _, _, _, _, _, _, _, _, q15, q16, q17, q18, q19, q20, q21, q22⟩ := hc
  exact (notMemAppend (notMemAppend (notMemAppend (notMemAppend (notMemAppend (notMemAppend (notMemAppend (notMemAppend (notMemAppend (notMemAppend (notMemAppend (notMemAppend (notMemAppend (notMemAppend (notMemAppend (notMemAppend (by decide) (cleanText_not_mem q15).2) (by decide)) (cleanText_not_mem q16).2) (by decide)) (cleanText_not_mem q17).2) (by decide)) (cleanText_not_mem q18).2) (by decide)) (cleanText_not_mem q19).2) (by decide)) (cleanText_not_mem q20).2) (by decide)) (cleanText_not_mem q21).2) (by decide)) (cleanText_not_mem q22).2) (by decide))


theorem noOcc_P (lr : Str) (base : Str) (n : String) (tail : Str)
    (hocc : occursIn ('[' :: lr) base = false) (hnl : '\n' ∉ lr) (hn2 : '[' ∉ n.data) :
    ∀ i, i < (base ++ (('\n' :: '\n' :: []) ++ tomlPre n)).length →
      ('[' :: lr).isPrefixOf
        (List.drop i ((base ++ (('\n' :: '\n' :: []) ++ tomlPre n)) ++ tail)) = false := by
  have hnl2 : '\n' ∉ ('[' :: lr) := by
    intro hm
    rcases List.mem_cons.mp hm with he | hm2
    · exact absurd he (by decide)
    · exact hnl hm2
  apply noOcc_append
  · exact noOcc_boundary '[' lr base ('\n' :: (tomlPre n ++ tail)) hocc hnl2
  · refine noOcc_notMem '[' lr (('\n' :: '\n' :: []) ++ tomlPre n) tail ?_
    refine notMemAppend ?_ ?_
    · decide
    · exact notMemAppend (notMemAppend (by decide) hn2) (by decide)

theorem stripHdr_tomlPre (n : String) (hnn : '\n' ∉ n.data) : stripHdr (tomlPre n) = [] := by
  have hY : tomlPre n
      = hdrLit1 ++ (' ' :: (n.data ++ ('\n' :: ("# Generated by ShellShade\n\n").data))) := rfl
  have hd : ((tomlPre n).drop hdrLit1.length).dropWhile (fun x => !(x == '\n'))
      = '\n' :: ("# Generated by ShellShade\n\n").data := by
    rw [hY, List.drop_left]
    have hsp : (' ' :: (n.data ++ ('\n' :: ("# Generated by ShellShade\n\n").data)))
        = (' ' :: n.data) ++ ('\n' :: ("# Generated by ShellShade\n\n").data) := by simp
    rw [hsp]
    refine dropWhile_not_nl (' ' :: n.data) _ ?_
    intro hm
    rcases List.mem_cons.mp hm with he | hm2
    · exact absurd he (by decide)
    · exact hnn hm2
  have hpf : hdrLit1.isPrefixOf (tomlPre n) = true := by
    rw [hY]
    exact isPrefixOf_self_append _ _
  rw [stripHdr_match (tomlPre n) (("# Generated by ShellShade\n\n").data) hpf '\n' hd (by decide)]
  rfl

theorem jsTrim_append_nn (base : Str) : jsTrim (base ++ ('\n' :: '\n' :: [])) = jsTrim base := by
  have h : (base ++ ('\n' :: '\n' :: [])).reverse.dropWhile isJsWs
      = base.reverse.dropWhile isJsWs := by
    rw [List.reverse_append]
    show List.dropWhile isJsWs ('\n' :: '\n' :: base.reverse) = _
    rw [List.dropWhile_cons, if_pos (by decide), List.dropWhile_cons, if_pos (by decide)]
  simp only [jsTrim, trimEnd]
  rw [h]

theorem alacrittyStrip_id (base : Str)
    (hs1 : occursIn ('[' :: ("colors.primary]").data) base = false)
    (hs2 : occursIn ('[' :: ("colors.cursor]").data) base = false)
    (hs3 : occursIn ('[' :: ("colors.selection]").data) base = false)
    (hs4 : occursIn ('[' :: ("colors.normal]").data) base = false)
    (hs5 : occursIn ('[' :: ("colors.bright]").data) base = false)
    (hsh : occursIn hdrLit1 base = false)
    (htr : jsTrim base = base) : alacrittyStrip base = base := by
  have hb1 : stripSec ('[' :: ("colors.primary]").data) base = base :=
    stripSec_id '[' ("colors.primary]").data base
      (fun i _ => occursIn_false_drop '[' ("colors.primary]").data base hs1 i)
  have hb2 : stripSec ('[' :: ("colors.cursor]").data) base = base :=
    stripSec_id '[' ("colors.cursor]").data base
      (fun i _ => occursIn_false_drop '[' ("colors.cursor]").data base hs2 i)
  have hb3 : stripSec ('[' :: ("colors.selection]").data) base = base :=
    stripSec_id '[' ("colors.selection]").data base
      (fun i _ => occursIn_false_drop '[' ("colors.selection]").data base hs3 i)
  have hb4 : stripSec ('[' :: ("colors.normal]").data) base = base :=
    stripSec_id '[' ("colors.normal]").data base
      (fun i _ => occursIn_false_drop '[' ("colors.normal]").data base hs4 i)
  have hb5 : stripSec ('[' :: ("colors.bright]").data) base = base :=
    stripSec_id '[' ("colors.bright]").data base
      (fun i _ => occursIn_false_drop '[' ("colors.bright]").data base hs5 i)
  have hbh : stripHdr base = base :=
    stripHdr_id base
      (fun i _ => occursIn_false_drop '#' (" ShellShade Theme:").data base hsh i)
  simp only [alacrittyStrip, litPrimary_eq, litCursor_eq, litSelection_eq, litNormal_eq,
    litBright_eq]
  rw [hb1, hb2, hb3, hb4, hb5, hbh]
  exact htr

theorem merged_of_strip (prior n : String) (c : ThemeColors) (b : Str)
    (hstrip : alacrittyStrip prior.data = b) (hb : b ≠ []) :
    alacrittyMergedContent (some prior) n c =
      (⟨b⟩ : String) ++ "\n\n" ++ alacrittyToml n c := by
  simp only [alacrittyMergedContent]
  rw [hstrip]
  rw [if_neg (fun he => hb (congrArg String.data he))]


theorem alacrittyStrip_merged (base : Str) (n : String) (c : ThemeColors)
    (hs1 : occursIn ('[' :: ("colors.primary]").data) base = false)
    (hs2 : occursIn ('[' :: ("colors.cursor]").data) base = false)
    (hs3 : occursIn ('[' :: ("colors.selection]").data) base = false)
    (hs4 : occursIn ('[' :: ("colors.normal]").data) base = false)
    (hs5 : occursIn ('[' :: ("colors.bright]").data) base = false)
    (hsh : occursIn hdrLit1 base = false)
    (hn : cleanText n.data = true) (hc : cleanColors c = true) :
    alacrittyStrip (base ++ ('\n' :: '\n' :: (alacrittyToml n c).data)) = jsTrim base := by
  have hn2 : '[' ∉ n.data := (cleanText_not_mem hn).2
  have hnn : '\n' ∉ n.data := (cleanText_not_mem hn).1
  have hb1 : '[' ∉ tomlB1 c := tomlB1_nb c hc
  have hb2 : '[' ∉ tomlB2 c := tomlB2_nb c hc
  have hb3 : '[' ∉ tomlB3 c := tomlB3_nb c hc
  have hb4 : '[' ∉ tomlB4 c := tomlB4_nb c hc
  have hb5 : '[' ∉ tomlB5 c := tomlB5_nb c hc
  have hdec : (alacrittyToml n c).data
      = tomlPre n ++ (('[' :: ("colors.primary]").data) ++ (tomlB1 c ++ (('[' :: ("colors.cursor]").data) ++ (tomlB2 c ++ (('[' :: ("colors.selection]").data) ++ (tomlB3 c ++ (('[' :: ("colors.normal]").data) ++ (tomlB4 c ++ (('[' :: ("colors.bright]").data) ++ tomlB5 c))))))))) := by
    rw [alacrittyToml_decomp]
  have e0 : base ++ ('\n' :: '\n' :: (alacrittyToml n c).data)
      = (base ++ (('\n' :: '\n' :: []) ++ tomlPre n)) ++ (('[' :: ("colors.primary]").data) ++ (tomlB1 c ++ (('[' :: ("colors.cursor]").data) ++ (tomlB2 c ++ (('[' :: ("colors.selection]").data) ++ (tomlB3 c ++ (('[' :: ("colors.normal]").data) ++ (tomlB4 c ++ (('[' :: ("colors.bright]").data) ++ tomlB5 c))))))))) := by
    rw [hdec]
    simp [List.append_assoc]
  have na1 : NoOccAll ('[' :: ("colors.primary]").data) (('[' :: ("colors.cursor]").data) ++ (tomlB2 c ++ (('[' :: ("colors.selection]").data) ++ (tomlB3 c ++ (('[' :: ("colors.normal]").data) ++ (tomlB4 c ++ (('[' :: ("colors.bright]").data) ++ tomlB5 c))))))) :=
    noOccAll_lit_block '[' ("colors.primary]").data '[' ("colors.cursor]").data (tomlB2 c ++ (('[' :: ("colors.selection]").data) ++ (tomlB3 c ++ (('[' :: ("colors.normal]").data) ++ (tomlB4 c ++ (('[' :: ("colors.bright]").data) ++ tomlB5 c)))))) rfl (by decide)
      (noOccAll_nb '[' ("colors.primary]").data (tomlB2 c) (('[' :: ("colors.selection]").data) ++ (tomlB3 c ++ (('[' :: ("colors.normal]").data) ++ (tomlB4 c ++ (('[' :: ("colors.bright]").data) ++ tomlB5 c))))) hb2
      (noOccAll_lit_block '[' ("colors.primary]").data '[' ("colors.selection]").data (tomlB3 c ++ (('[' :: ("colors.normal]").data) ++ (tomlB4 c ++ (('[' :: ("colors.bright]").data) ++ tomlB5 c)))) rfl (by decide)
      (noOccAll_nb '[' ("colors.primary]").data (tomlB3 c) (('[' :: ("colors.normal]").data) ++ (tomlB4 c ++ (('[' :: ("colors.bright]").data) ++ tomlB5 c))) hb3
      (noOccAll_lit_block '[' ("colors.primary]").data '[' ("colors.normal]").data (tomlB4 c ++ (('[' :: ("colors.bright]").data) ++ tomlB5 c)) rfl (by decide)
      (noOccAll_nb '[' ("colors.primary]").data (tomlB4 c) (('[' :: ("colors.bright]").data) ++ tomlB5 c) hb4
      (noOccAll_lit_block '[' ("colors.primary]").data '[' ("colors.bright]").data (tomlB5 c) rfl (by decide)
      (noOccAll_of_notMem '[' ("colors.primary]").data (tomlB5 c) hb5)))))))
  have na2 : NoOccAll ('[' :: ("colors.cursor]").data) (('[' :: ("colors.selection]").data) ++ (tomlB3 c ++ (('[' :: ("colors.normal]").data) ++ (tomlB4 c ++ (('[' :: ("colors.bright]").data) ++ tomlB5 c))))) :=
    noOccAll_lit_block '[' ("colors.cursor]").data '[' ("colors.selection]").data (tomlB3 c ++ (('[' :: ("colors.normal]").data) ++ (tomlB4 c ++ (('[' :: ("colors.bright]").data) ++ tomlB5 c)))) rfl (by decide)
      (noOccAll_nb '[' ("colors.cursor]").data (tomlB3 c) (('[' :: ("colors.normal]").data) ++ (tomlB4 c ++ (('[' :: ("colors.bright]").data) ++ tomlB5 c))) hb3
      (noOccAll_lit_block '[' ("colors.cursor]").data '[' ("colors.normal]").data (tomlB4 c ++ (('[' :: ("colors.bright]").data) ++ tomlB5 c)) rfl (by decide)
      (noOccAll_nb '[' ("colors.cursor]").data (tomlB4 c) (('[' :: ("colors.bright]").data) ++ tomlB5 c) hb4
      (noOccAll_lit_block '[' ("colors.cursor]").data '[' ("colors.bright]").data (tomlB5 c) rfl (by decide)
      (noOccAll_of_notMem '[' ("colors.cursor]").data (tomlB5 c) hb5)))))
  have na3 : NoOccAll ('[' :: ("colors.selection]").data) (('[' :: ("colors.normal]").data) ++ (tomlB4 c ++ (('[' :: ("colors.bright]").data) ++ tomlB5 c))) :=
    noOccAll_lit_block '[' ("colors.selection]").data '[' ("colors.normal]").data (tomlB4 c ++ (('[' :: ("colors.bright]").data) ++ tomlB5 c)) rfl (by decide)
      (noOccAll_nb '[' ("colors.selection]").data (tomlB4 c) (('[' :: ("colors.bright]").data) ++ tomlB5 c) hb4
      (noOccAll_lit_block '[' ("colors.selection]").data '[' ("colors.bright]").data (tomlB5 c) rfl (by decide)
      (noOccAll_of_notMem '[' ("colors.selection]").data (tomlB5 c) hb5)))
  have na4 : NoOccAll ('[' :: ("colors.normal]").data) (('[' :: ("colors.bright]").data) ++ tomlB5 c) :=
    noOccAll_lit_block '[' ("colors.normal]").data '[' ("colors.bright]").data (tomlB5 c) rfl (by decide)
      (noOccAll_of_notMem '[' ("colors.normal]").data (tomlB5 c) hb5)
  have e1 : stripSec ('[' :: ("colors.primary]").data) (base ++ ('\n' :: '\n' :: (alacrittyToml n c).data))
      = (base ++ (('\n' :: '\n' :: []) ++ tomlPre n)) ++ (('[' :: ("colors.cursor]").data) ++ (tomlB2 c ++ (('[' :: ("colors.selection]").data) ++ (tomlB3 c ++ (('[' :: ("colors.normal]").data) ++ (tomlB4 c ++ (('[' :: ("colors.bright]").data) ++ tomlB5 c))))))) := by
    rw [e0, stripSec_chunk '[' ("colors.primary]").data (base ++ (('\n' :: '\n' :: []) ++ tomlPre n)) (tomlB1 c) (('[' :: ("colors.cursor]").data) ++ (tomlB2 c ++ (('[' :: ("colors.selection]").data) ++ (tomlB3 c ++ (('[' :: ("colors.normal]").data) ++ (tomlB4 c ++ (('[' :: ("colors.bright]").data) ++ tomlB5 c)))))))
        (noOcc_P ("colors.primary]").data base n _ hs1 (by decide) hn2) hb1 rfl,
      stripSec_id '[' ("colors.primary]").data (('[' :: ("colors.cursor]").data) ++ (tomlB2 c ++ (('[' :: ("colors.selection]").data) ++ (tomlB3 c ++ (('[' :: ("colors.normal]").data) ++ (tomlB4 c ++ (('[' :: ("colors.bright]").data) ++ tomlB5 c))))))) (fun i _ => na1 i)]
  have e2 : stripSec ('[' :: ("colors.cursor]").data) ((base ++ (('\n' :: '\n' :: []) ++ tomlPre n)) ++ (('[' :: ("colors.cursor]").data) ++ (tomlB2 c ++ (('[' :: ("colors.selection]").data) ++ (tomlB3 c ++ (('[' :: ("colors.normal]").data) ++ (tomlB4 c ++ (('[' :: ("colors.bright]").data) ++ tomlB5 c)))))))) = (base ++ (('\n' :: '\n' :: []) ++ tomlPre n)) ++ (('[' :: ("colors.selection]").data) ++ (tomlB3 c ++ (('[' :: ("colors.normal]").data) ++ (tomlB4 c ++ (('[' :: ("colors.bright]").data) ++ tomlB5 c))))) := by
    rw [stripSec_chunk '[' ("colors.cursor]").data (base ++ (('\n' :: '\n' :: []) ++ tomlPre n)) (tomlB2 c) (('[' :: ("colors.selection]").data) ++ (tomlB3 c ++ (('[' :: ("colors.normal]").data) ++ (tomlB4 c ++ (('[' :: ("colors.bright]").data) ++ tomlB5 c)))))
        (noOcc_P ("colors.cursor]").data base n _ hs2 (by decide) hn2) hb2 rfl,
      stripSec_id '[' ("colors.cursor]").data (('[' :: ("colors.selection]").data) ++ (tomlB3 c ++ (('[' :: ("colors.normal]").data) ++ (tomlB4 c ++ (('[' :: ("colors.bright]").data) ++ tomlB5 c))))) (fun i _ => na2 i)]
  have e3 : stripSec ('[' :: ("colors.selection]").data) ((base ++ (('\n' :: '\n' :: []) ++ tomlPre n)) ++ (('[' :: ("colors.selection]").data) ++ (tomlB3 c ++ (('[' :: ("colors.normal]").data) ++ (tomlB4 c ++ (('[' :: ("colors.bright]").data) ++ tomlB5 c)))))) = (base ++ (('\n' :: '\n' :: []) ++ tomlPre n)) ++ (('[' :: ("colors.normal]").data) ++ (tomlB4 c ++ (('[' :: ("colors.bright]").data) ++ tomlB5 c))) := by
    rw [stripSec_chunk '[' ("colors.selection]").data (base ++ (('\n' :: '\n' :: []) ++ tomlPre n)) (tomlB3 c) (('[' :: ("colors.normal]").data) ++ (tomlB4 c ++ (('[' :: ("colors.bright]").data) ++ tomlB5 c)))
        (noOcc_P ("colors.selection]").data base n _ hs3 (by decide) hn2) hb3 rfl,
      stripSec_id '[' ("colors.selection]").data (('[' :: ("colors.normal]").data) ++ (tomlB4 c ++ (('[' :: ("colors.bright]").data) ++ tomlB5 c))) (fun i _ => na3 i)]
  have e4 : stripSec ('[' :: ("colors.normal]").data) ((base ++ (('\n' :: '\n' :: []) ++ tomlPre n)) ++ (('[' :: ("colors.normal]").data) ++ (tomlB4 c ++ (('[' :: ("colors.bright]").data) ++ tomlB5 c)))) = (base ++ (('\n' :: '\n' :: []) ++ tomlPre n)) ++ (('[' :: ("colors.bright]").data) ++ tomlB5 c) := by
    rw [stripSec_chunk '[' ("colors.normal]").data (base ++ (('\n' :: '\n' :: []) ++ tomlPre n)) (tomlB4 c) (('[' :: ("colors.bright]").data) ++ tomlB5 c)
        (noOcc_P ("colors.normal]").data base n _ hs4 (by decide) hn2) hb4 rfl,
      stripSec_id '[' ("colors.normal]").data (('[' :: ("colors.bright]").data) ++ tomlB5 c) (fun i _ => na4 i)]
  have e5 : stripSec ('[' :: ("colors.bright]").data) ((base ++ (('\n' :: '\n' :: []) ++ tomlPre n)) ++ (('[' :: ("colors.bright]").data) ++ tomlB5 c)) = (base ++ (('\n' :: '\n' :: []) ++ tomlPre n)) :=
    stripSec_chunk_last '[' ("colors.bright]").data (base ++ (('\n' :: '\n' :: []) ++ tomlPre n)) (tomlB5 c)
      (noOcc_P ("colors.bright]").data base n _ hs5 (by decide) hn2) hb5
  have hskip : ∀ i, i < (base ++ ('\n' :: '\n' :: [])).length →
      hdrLit1.isPrefixOf
        (List.drop i ((base ++ ('\n' :: '\n' :: [])) ++ tomlPre n)) = false := by
    apply noOcc_append
    · exact noOcc_boundary '#' (" ShellShade Theme:").data base ('\n' :: tomlPre n) hsh
        (by decide)
    · exact noOcc_notMem '#' (" ShellShade Theme:").data ('\n' :: '\n' :: []) (tomlPre n)
        (by decide)
  have e6 : stripHdr (base ++ (('\n' :: '\n' :: []) ++ tomlPre n))
      = base ++ ('\n' :: '\n' :: []) := by
    rw [← List.append_assoc, stripHdr_skip (base ++ ('\n' :: '\n' :: [])) (tomlPre n) hskip,
      stripHdr_tomlPre n hnn, List.append_nil]
  simp only [alacrittyStrip, litPrimary_eq, litCursor_eq, litSelection_eq, litNormal_eq,
    litBright_eq]
  rw [e1, e2, e3, e4, e5, e6]
  exact jsTrim_append_nn base


/-- C7: repeated Alacritty installs do not accumulate theme blocks: for a
prior config with no occurrence of the five section literals or the
ShellShade header tag, and an already-trimmed nonempty body, the first
install writes the body followed by a blank line and the theme block, and
installing a second theme over that result yields exactly the body
followed by the second theme's block (the first block is stripped, the
body is preserved).  The unamended claim is refuted by the
counterexample: a prior config whose string value embeds
`[colors.primary]` loses its following non-color lines. -/
theorem alacritty_repeated_install (base n1 n2 : String) (c1 c2 : ThemeColors)
    (hs1 : occursIn ("[colors.primary]").data base.data = false)
    (hs2 : occursIn ("[colors.cursor]").data base.data = false)
    (hs3 : occursIn ("[colors.selection]").data base.data = false)
    (hs4 : occursIn ("[colors.normal]").data base.data = false)
    (hs5 : occursIn ("[colors.bright]").data base.data = false)
    (hsh : occursIn hdrLit1 base.data = false)
    (hne : base.data ≠ [])
    (htr : jsTrim base.data = base.data)
    (hn1 : cleanText n1.data = true) (hc1 : cleanColors c1 = true) :
    alacrittyMergedContent (some base) n1 c1 = base ++ "\n\n" ++ alacrittyToml n1 c1 ∧
    alacrittyMergedContent (some (alacrittyMergedContent (some base) n1 c1)) n2 c2 =
      base ++ "\n\n" ++ alacrittyToml n2 c2 := by
  have hsid : alacrittyStrip base.data = base.data :=
    alacrittyStrip_id base.data hs1 hs2 hs3 hs4 hs5 hsh htr
  have hm1 : alacrittyMergedContent (some base) n1 c1
      = base ++ "\n\n" ++ alacrittyToml n1 c1 :=
    merged_of_strip base n1 c1 base.data hsid hne
  have hmdata : (alacrittyMergedContent (some base) n1 c1).data
      = base.data ++ ('\n' :: '\n' :: (alacrittyToml n1 c1).data) := by
    rw [hm1, String.data_append, String.data_append, List.append_assoc]
    rfl
  have hstripM1 : alacrittyStrip (alacrittyMergedContent (some base) n1 c1).data
      = base.data := by
    rw [hmdata, alacrittyStrip_merged base.data n1 c1 hs1 hs2 hs3 hs4 hs5 hsh hn1 hc1]
    exact htr
  exact ⟨hm1, merged_of_strip (alacrittyMergedContent (some base) n1 c1) n2 c2 base.data
    hstripM1 hne⟩

/-- Witness for the C7 theorem at a concrete prior config and two
concrete themes. -/
theorem alacritty_repeated_install_witness :
    jsTrim ("font = 12").data = ("font = 12").data ∧
    (alacrittyMergedContent (some "font = 12") "Solid Dark" (solidColors "#101010") =
        "font = 12" ++ "\n\n" ++ alacrittyToml "Solid Dark" (solidColors "#101010") ∧
      alacrittyMergedContent
          (some (alacrittyMergedContent (some "font = 12") "Solid Dark"
            (solidColors "#101010")))
          "Solid Light" (solidColors "#efefef") =
        "font = 12" ++ "\n\n" ++ alacrittyToml "Solid Light" (solidColors "#efefef")) :=
  ⟨by decide, alacritty_repeated_install "font = 12" "Solid Dark" "Solid Light"
    (solidColors "#101010") (solidColors "#efefef") (by decide) (by decide) (by decide)
    (by decide) (by decide) (by decide) (by decide) (by decide) (by decide) (by decide)⟩
